import Mathlib

/-!
# Verification of the wearable-data normalization engine

Shallow embedding of `src/alfred_brain_001/glue/scripts/normalize_wearable_data.py`.

Python values are modelled by the inductive type `Val` (floats as exact
rationals — every computation the claims exercise is exact in binary
floating point, so the rational model is faithful there).  Python dicts are
association lists with first-match lookup; an in-place update is modelled by
prepending, which gives the same lookup semantics.  A Python exception is
modelled by `Except`: the error value carries the state of the payload at
the moment the exception is raised, so a `try ... except: return data` block
becomes `runCatch`, which returns the partially-mutated payload, exactly as
CPython does for a dict mutated in place before the raise.
-/

set_option autoImplicit false

set_option allowUnsafeReducibility true in
attribute [semireducible] Rat.mul Rat.add Rat.inv Rat.sub Rat.neg Rat.ofScientific

/-- Model of a Python/JSON value as manipulated by the normalizers. -/
inductive Val where
  | vnone : Val
  | vbool (b : Bool) : Val
  | vint (n : Int) : Val
  | vnum (q : ℚ) : Val
  | vstr (s : String) : Val
  | vlist (l : List Val) : Val
  | vmap (m : List (String × Val)) : Val

/-- A Python dict, as an association list (first match wins on lookup). -/
abbrev Payload := List (String × Val)

/-- Dict lookup: first entry with the given key. -/
def pget : Payload → String → Option Val
  | [], _ => none
  | (k, v) :: rest, key => if k = key then some v else pget rest key

/-- Dict update `d[k] = v`, modelled by prepending (shadows older entries). -/
def pset (m : Payload) (k : String) (v : Val) : Payload := (k, v) :: m

/-- Lookup inside a value that may or may not be a dict. -/
def pgetV (v : Val) (k : String) : Option Val :=
  match v with
  | .vmap m => pget m k
  | _ => none

/-- Numeric view of a value (Python `int`, `float` and `bool` all support
arithmetic; `bool` counts as 0/1). -/
def asRat : Val → Option ℚ
  | .vint n => some (n : ℚ)
  | .vnum q => some q
  | .vbool b => some (if b then 1 else 0)
  | _ => none

/-- String membership test on characters, for Python `needle in haystack`
on strings (substring containment). -/
def strHasSub (needle hay : String) : Bool :=
  decide (needle.data <:+: hay.data)

/-- Python `v == s` for a string literal `s`: `==` never raises, and a
string compares equal only to an equal string. -/
def valIsStr (v : Val) (s : String) : Bool :=
  match v with
  | .vstr t => t = s
  | _ => false

/-- Python `x in y`: key membership for dicts, element membership for lists
(equality with a string matches only equal strings), substring for strings;
`TypeError` (= `.error ()`) otherwise. -/
def containsIn (needle : String) (hay : Val) : Except Unit Bool :=
  match hay with
  | .vmap m => .ok (pget m needle).isSome
  | .vlist l => .ok (l.any (fun e => valIsStr e needle))
  | .vstr s => .ok (strHasSub needle s)
  | _ => .error ()

/-- Python subscript `y[k]` with a string key: dict lookup (`KeyError` when
absent); `TypeError` on any non-dict. -/
def getItem (v : Val) (k : String) : Except Unit Val :=
  match v with
  | .vmap m =>
    match pget m k with
    | some x => .ok x
    | none => .error ()
  | _ => .error ()

/-- Python `y.get(k, default)`: only dicts have `.get` (`AttributeError`
otherwise). -/
def pyGetD (v : Val) (k : String) (dflt : Val) : Except Unit Val :=
  match v with
  | .vmap m => .ok ((pget m k).getD dflt)
  | _ => .error ()

/-- Python subscript assignment `y[k] = x`: only dicts accept a string key. -/
def setItem (v : Val) (k : String) (x : Val) : Except Unit Val :=
  match v with
  | .vmap m => .ok (.vmap (pset m k x))
  | _ => .error ()

/-- Lower-casing, character by character (same semantics as
`String.toLower`, stated on the character list). -/
def strLower (s : String) : String := String.mk (s.data.map Char.toLower)

/-- Python `str.lower()`: `AttributeError` on a non-string. -/
def pyLower (v : Val) : Except Unit String :=
  match v with
  | .vstr s => .ok (strLower s)
  | _ => .error ()

/-- Python `a > b`: numeric comparison, or lexicographic on two strings;
`TypeError` on mixed/unsupported operands. -/
def pyGt (a b : Val) : Except Unit Bool :=
  match asRat a, asRat b with
  | some x, some y => .ok (decide (y < x))
  | _, _ =>
    match a, b with
    | .vstr s, .vstr t => .ok (decide (t < s))
    | _, _ => .error ()

/-- Python `a < b`. -/
def pyLt (a b : Val) : Except Unit Bool :=
  match asRat a, asRat b with
  | some x, some y => .ok (decide (x < y))
  | _, _ =>
    match a, b with
    | .vstr s, .vstr t => .ok (decide (s < t))
    | _, _ => .error ()

/-- Python `v * k` with an `int` literal `k`: numeric product, sequence
repetition for strings and lists, `TypeError` otherwise. -/
def pyMulInt (v : Val) (k : Int) : Except Unit Val :=
  match v with
  | .vint n => .ok (.vint (n * k))
  | .vnum q => .ok (.vnum (q * (k : ℚ)))
  | .vbool b => .ok (.vint ((if b then 1 else 0) * k))
  | .vstr s => .ok (.vstr (String.join (List.replicate k.toNat s)))
  | .vlist l => .ok (.vlist (List.flatten (List.replicate k.toNat l)))
  | _ => .error ()

/-- Python `v * q` with a `float` literal `q`: numeric product only
(`TypeError` even for sequences). -/
def pyMulRat (v : Val) (q : ℚ) : Except Unit Val :=
  match asRat v with
  | some x => .ok (.vnum (x * q))
  | none => .error ()

/-- Python `k + v` with an `int` literal `k` on the left. -/
def pyAddInt (k : Int) (v : Val) : Except Unit Val :=
  match v with
  | .vint n => .ok (.vint (k + n))
  | .vnum q => .ok (.vnum ((k : ℚ) + q))
  | .vbool b => .ok (.vint (k + (if b then 1 else 0)))
  | _ => .error ()

/-- Python `v + q` with a `float` `q` on the right. -/
def pyAddRat (v : Val) (q : ℚ) : Except Unit Val :=
  match asRat v with
  | some x => .ok (.vnum (x + q))
  | none => .error ()

/-- Python `a + b` as used by `sum` (numeric only here; the accumulator
starts at `int 0`). -/
def pyAddVal (a b : Val) : Except Unit Val :=
  match a, b with
  | .vint n, .vint m => .ok (.vint (n + m))
  | _, _ =>
    match asRat a, asRat b with
    | some x, some y => .ok (.vnum (x + y))
    | _, _ => .error ()

/-- Python `v / k` with an `int` literal `k`: true division, always a float. -/
def pyDivInt (v : Val) (k : Int) : Except Unit ℚ :=
  match asRat v with
  | some x => .ok (x / (k : ℚ))
  | none => .error ()

/-- Python truthiness of a value. -/
def pyTruthy : Val → Bool
  | .vnone => false
  | .vbool b => b
  | .vint n => decide (n ≠ 0)
  | .vnum q => decide (q ≠ 0)
  | .vstr s => decide (s ≠ "")
  | .vlist l => !l.isEmpty
  | .vmap m => !m.isEmpty

/-- Python `len`. -/
def pyLen (v : Val) : Except Unit Nat :=
  match v with
  | .vstr s => .ok s.length
  | .vlist l => .ok l.length
  | .vmap m => .ok m.length
  | _ => .error ()

/-- ASCII digit test. -/
def isDig (c : Char) : Bool := decide (48 ≤ c.toNat ∧ c.toNat ≤ 57)

/-- Value of an ASCII digit. -/
def digVal (c : Char) : Nat := c.toNat - 48

/-- Accumulate a run of digits into a natural number. -/
def natOfDigits : List Char → Nat → Nat
  | [], acc => acc
  | c :: rest, acc => natOfDigits rest (acc * 10 + digVal c)

/-- Decimal fraction value of a digit run: `digits / 10 ^ length`. -/
def fracOfDigits (l : List Char) : ℚ :=
  (natOfDigits l 0 : ℚ) / ((10 : ℚ) ^ l.length)

/-- Model of Python `float(string)`: optional sign, integer part, optional
point and fraction part (scientific notation, infinities and underscores
are not modelled; no claim exercises them).  `none` models `ValueError`. -/
def parseDecimal (s : String) : Option ℚ :=
  let l := s.data.dropWhile (fun c => c = ' ')
  let l := (l.reverse.dropWhile (fun c => c = ' ')).reverse
  let core : List Char → Option ℚ := fun l =>
    let ip := l.takeWhile isDig
    let rest := l.dropWhile isDig
    match rest with
    | [] => if ip.isEmpty then none else some (natOfDigits ip 0 : ℚ)
    | '.' :: rest2 =>
      let fp := rest2.takeWhile isDig
      let rest3 := rest2.dropWhile isDig
      if rest3.isEmpty ∧ (ip ≠ [] ∨ fp ≠ []) then
        some ((natOfDigits ip 0 : ℚ) + fracOfDigits fp)
      else none
    | _ => none
  match l with
  | '-' :: rest => (core rest).map (fun q => -q)
  | '+' :: rest => core rest
  | _ => core l

/-- Model of Python `float(v)`: numbers and numeric strings succeed,
everything else raises. -/
def pyFloat (v : Val) : Except Unit ℚ :=
  match v with
  | .vint n => .ok (n : ℚ)
  | .vnum q => .ok q
  | .vbool b => .ok (if b then 1 else 0)
  | .vstr s =>
    match parseDecimal s with
    | some q => .ok q
    | none => .error ()
  | _ => .error ()

/-- Truncation toward zero, as Python `int(float)` does. -/
def ratTrunc (q : ℚ) : Int := Int.tdiv q.num (q.den : Int)

/-- Lift a stateless fallible computation into one whose error records the
payload state at the moment of the raise. -/
def liftE {α : Type} (st : Val) : Except Unit α → Except Val α
  | .ok a => .ok a
  | .error _ => .error st

/-- Sequence two statements of a `try` block: an exception in the first
aborts the block with the state at the raise. -/
def eseq (f g : Val → Except Val Val) : Val → Except Val Val :=
  fun v =>
    match f v with
    | .ok w => g w
    | .error w => .error w

/-- `try: body except: return current-state` — the Python handlers in this
script return the (possibly partially mutated) payload object itself. -/
def runCatch (f : Val → Except Val Val) (v : Val) : Val :=
  match f v with
  | .ok w => w
  | .error w => w

/-! ## Model of `json.loads`

A fuel-indexed recursive-descent JSON parser.  Escapes beyond the common
single-character ones, scientific notation and deep nesting beyond the fuel
bound are not modelled; no claim exercises the string-payload decode path,
but it is kept so the normalizers have the source's shape. -/

/-- Skip JSON whitespace. -/
def skipWs (cs : List Char) : List Char :=
  cs.dropWhile (fun c => c = ' ' ∨ c = '\t' ∨ c = '\n' ∨ c = '\r')

/-- Parse the body of a JSON string after the opening quote. -/
def jsonStrChars : List Char → Option (List Char × List Char)
  | [] => none
  | '\\' :: e :: rest =>
    let dec : Option Char :=
      if e = '"' ∨ e = '\\' ∨ e = '/' then some e
      else if e = 'n' then some '\n'
      else if e = 't' then some '\t'
      else if e = 'r' then some '\r'
      else none
    match dec with
    | none => none
    | some c => (jsonStrChars rest).map (fun p => (c :: p.1, p.2))
  | '"' :: rest => some ([], rest)
  | c :: rest => (jsonStrChars rest).map (fun p => (c :: p.1, p.2))

/-- Parse a JSON number (integer or decimal). -/
def jsonNumTok (cs : List Char) : Option (Val × List Char) :=
  let neg := cs.head? = some '-'
  let cs1 := if neg then cs.tail else cs
  let ip := cs1.takeWhile isDig
  let rest := cs1.dropWhile isDig
  if ip.isEmpty then none
  else
    match rest with
    | '.' :: r2 =>
      let fp := r2.takeWhile isDig
      let r3 := r2.dropWhile isDig
      if fp.isEmpty then none
      else
        let q : ℚ := (natOfDigits ip 0 : ℚ) + fracOfDigits fp
        some (.vnum (if neg then -q else q), r3)
    | _ =>
      let n : Int := (natOfDigits ip 0 : Int)
      some (.vint (if neg then -n else n), rest)

mutual

/-- Parse one JSON value. -/
def jsonVal : Nat → List Char → Option (Val × List Char)
  | 0, _ => none
  | fuel + 1, cs =>
    match skipWs cs with
    | 'n' :: 'u' :: 'l' :: 'l' :: rest => some (.vnone, rest)
    | 't' :: 'r' :: 'u' :: 'e' :: rest => some (.vbool true, rest)
    | 'f' :: 'a' :: 'l' :: 's' :: 'e' :: rest => some (.vbool false, rest)
    | '"' :: rest => (jsonStrChars rest).map (fun p => (.vstr (String.mk p.1), p.2))
    | '[' :: rest =>
      match skipWs rest with
      | ']' :: r2 => some (.vlist [], r2)
      | r2 => jsonArrItems fuel r2 []
    | '\x7b' :: rest =>
      match skipWs rest with
      | '\x7d' :: r2 => some (.vmap [], r2)
      | r2 => jsonObjItems fuel r2 []
    | cs2 => jsonNumTok cs2

/-- Parse the items of a JSON array (after any initial whitespace). -/
def jsonArrItems : Nat → List Char → List Val → Option (Val × List Char)
  | 0, _, _ => none
  | fuel + 1, cs, acc =>
    match jsonVal fuel cs with
    | none => none
    | some (v, rest) =>
      match skipWs rest with
      | ',' :: r2 => jsonArrItems fuel r2 (acc ++ [v])
      | ']' :: r2 => some (.vlist (acc ++ [v]), r2)
      | _ => none

/-- Parse the entries of a JSON object (after any initial whitespace). -/
def jsonObjItems : Nat → List Char → Payload → Option (Val × List Char)
  | 0, _, _ => none
  | fuel + 1, cs, acc =>
    match skipWs cs with
    | '"' :: r1 =>
      match jsonStrChars r1 with
      | none => none
      | some (kcs, r2) =>
        match skipWs r2 with
        | ':' :: r3 =>
          match jsonVal fuel r3 with
          | none => none
          | some (v, r4) =>
            let acc2 := pset acc (String.mk kcs) v
            match skipWs r4 with
            | ',' :: r5 => jsonObjItems fuel r5 acc2
            | '\x7d' :: r5 => some (.vmap acc2, r5)
            | _ => none
        | _ => none
    | _ => none

end

/-- Model of Python `json.loads`: parse one value, require full consumption. -/
def jsonDecode (s : String) : Option Val :=
  match jsonVal (s.length + 1) s.data with
  | some (v, rest) => if (skipWs rest).isEmpty then some v else none
  | none => none

/-! ## The three domain normalizers

Each `try` block is a sequence of rules; `estep st e k` runs the stateless
computation `e`, aborting with the current payload state `st` when the
Python code would raise.  Within a single rule every possible raise happens
before that rule's first mutation (its `setItem`s cannot fail once reached,
because an earlier dict operation on the same object already succeeded), so
the state passed to `estep` is the rule's entry state until the first
`setItem`, then the updated one. -/

/-- Run one stateless step of a `try` block; a raise aborts with state `st`. -/
def estep {α : Type} (st : Val) (e : Except Unit α) (k : α → Except Val Val) : Except Val Val :=
  match e with
  | .error _ => .error st
  | .ok a => k a

/-- Heart-rate rule 1 (source lines 102-109): convert from normalized values
to BPM — guarded by a literal key `normalized` AND `unit == 'normalized'`. -/
def hrRule1 (d : Val) : Except Val Val :=
  estep d (containsIn "normalized" d) fun c =>
  if !c then .ok d else
  estep d (pyGetD d "unit" .vnone) fun u =>
  if !(valIsStr u "normalized") then .ok d else
  estep d (pyGetD d "avg_normalized" (.vint 0)) fun a =>
  estep d (pyGt a (.vint 0)) fun g1 =>
  if !g1 then .ok d else
  estep d (pyLt a (.vint 1)) fun g2 =>
  if !g2 then .ok d else
  estep d (getItem d "avg_normalized") fun x =>
  estep d (pyMulInt x 180) fun p =>
  estep d (pyAddInt 40 p) fun s =>
  estep d (setItem d "avg_bpm" s) fun d1 =>
  estep d1 (setItem d1 "unit" (.vstr "bpm")) fun d2 =>
  .ok d2

/-- Heart-rate rule 2 (lines 112-116): canonicalize the unit spelling, or
default it to `bpm` when absent. -/
def hrRule2 (d : Val) : Except Val Val :=
  estep d (containsIn "unit" d) fun c =>
  if c then
    estep d (getItem d "unit") fun u =>
    estep d (pyLower u) fun s =>
    if s = "bpm" ∨ s = "beats_per_minute" ∨ s = "beats per minute" then
      estep d (setItem d "unit" (.vstr "bpm")) fun d1 => .ok d1
    else .ok d
  else
    estep d (setItem d "unit" (.vstr "bpm")) fun d1 => .ok d1

/-- Heart-rate rule 3 (lines 119-120): copy `avg_hr` into `avg_bpm`. -/
def hrRule3 (d : Val) : Except Val Val :=
  estep d (containsIn "avg_hr" d) fun c1 =>
  if !c1 then .ok d else
  estep d (containsIn "avg_bpm" d) fun c2 =>
  if c2 then .ok d else
  estep d (getItem d "avg_hr") fun v =>
  estep d (setItem d "avg_bpm" v) fun d1 => .ok d1

/-- Python iteration `for x in v`: list elements, characters of a string,
keys of a dict; `TypeError` otherwise. -/
def elemsOf (v : Val) : Except Unit (List Val) :=
  match v with
  | .vlist l => .ok l
  | .vstr s => .ok (s.data.map (fun c => .vstr (String.mk [c])))
  | .vmap m => .ok (m.map (fun p => .vstr p.1))
  | _ => .error ()

/-- The comprehension `[dp.get('value', 0) for dp in data_points if 'value' in dp]`. -/
def collectBpm : List Val → Except Unit (List Val)
  | [] => .ok []
  | dp :: rest =>
    match containsIn "value" dp with
    | .error e => .error e
    | .ok false => collectBpm rest
    | .ok true =>
      match pyGetD dp "value" (.vint 0) with
      | .error e => .error e
      | .ok v => (collectBpm rest).map (fun l => v :: l)

/-- Python `sum`, folding `+` from an accumulator. -/
def pySum : List Val → Val → Except Unit Val
  | [], acc => .ok acc
  | v :: rest, acc =>
    match pyAddVal acc v with
    | .error e => .error e
    | .ok a => pySum rest a

/-- Heart-rate rule 4 (lines 123-128): average the `data_points` values. -/
def hrRule4 (d : Val) : Except Val Val :=
  estep d (containsIn "avg_bpm" d) fun cb =>
  if cb then .ok d else
  estep d (containsIn "data_points" d) fun cd =>
  if !cd then .ok d else
  estep d (pyGetD d "data_points" (.vlist [])) fun dps =>
  if !(pyTruthy dps) then .ok d else
  estep d (pyLen dps) fun n =>
  if n = 0 then .ok d else
  estep d (elemsOf dps) fun elems =>
  estep d (collectBpm elems) fun vals =>
  if vals.isEmpty then .ok d else
  estep d (pySum vals (.vint 0)) fun s =>
  estep d (pyDivInt s (vals.length : Int)) fun q =>
  estep d (setItem d "avg_bpm" (.vnum q)) fun d1 => .ok d1

/-- The `try` body of `normalize_heart_rate` after the string-decode step. -/
def hrBody : Val → Except Val Val :=
  eseq hrRule1 (eseq hrRule2 (eseq hrRule3 hrRule4))

/-- `normalize_heart_rate` (source lines 90-133). -/
def normalize_heart_rate (v : Val) : Val :=
  match v with
  | .vnone => .vnone
  | .vstr s =>
    match jsonDecode s with
    | none => .vstr s
    | some w => runCatch hrBody w
  | w => runCatch hrBody w

/-- Activity rule 1 (lines 146-160): normalize distance to meters. -/
def actRule1 (d : Val) : Except Val Val :=
  estep d (containsIn "distance" d) fun c =>
  if !c then .ok d else
  estep d (getItem d "distance") fun dist =>
  estep d (pyGetD d "distance_unit" (.vstr "meters")) fun uv =>
  estep d (pyLower uv) fun u =>
  estep d (if u = "km" ∨ u = "kilometers" then pyMulInt dist 1000
           else if u = "mi" ∨ u = "miles" then pyMulRat dist (160934 / 100)
           else if u = "ft" ∨ u = "feet" then pyMulRat dist (3048 / 10000)
           else .ok dist) fun w =>
  estep d (setItem d "distance_meters" w) fun d1 =>
  estep d1 (setItem d1 "distance_unit" (.vstr "meters")) fun d2 =>
  .ok d2

/-- Activity rule 2 (lines 163-172): normalize calories. -/
def actRule2 (d : Val) : Except Val Val :=
  estep d (containsIn "calories" d) fun cCal =>
  estep d (if cCal then containsIn "total_calories" d else .ok true) fun cTot1 =>
  if cCal ∧ !cTot1 then
    estep d (getItem d "calories") fun v =>
    estep d (setItem d "total_calories" v) fun d1 => .ok d1
  else
    estep d (containsIn "active_calories" d) fun cAct =>
    if !cAct then .ok d else
    estep d (containsIn "total_calories" d) fun cTot2 =>
    if cTot2 then .ok d else
    estep d (containsIn "duration_ms" d) fun cDur =>
    if cDur then
      estep d (getItem d "duration_ms") fun dur =>
      estep d (pyDivInt dur 3600000) fun hours =>
      estep d (getItem d "active_calories") fun act =>
      estep d (pyAddRat act ((1800 : ℚ) / 24 * hours)) fun tot =>
      estep d (setItem d "total_calories" tot) fun d1 => .ok d1
    else
      estep d (getItem d "active_calories") fun v =>
      estep d (setItem d "total_calories" v) fun d1 => .ok d1

/-- Activity rule 3 (lines 175-176): coerce `steps` to an integer. -/
def actRule3 (d : Val) : Except Val Val :=
  estep d (containsIn "steps" d) fun c =>
  if !c then .ok d else
  estep d (getItem d "steps") fun v =>
  match v with
  | .vnone => .ok d
  | _ =>
    estep d (pyFloat v) fun q =>
    estep d (setItem d "steps" (.vint (ratTrunc q))) fun d1 => .ok d1

/-- The `try` body of `normalize_activity`. -/
def actBody : Val → Except Val Val :=
  eseq actRule1 (eseq actRule2 actRule3)

/-- `normalize_activity` (source lines 136-181). -/
def normalize_activity (v : Val) : Val :=
  match v with
  | .vnone => .vnone
  | .vstr s =>
    match jsonDecode s with
    | none => .vstr s
    | some w => runCatch actBody w
  | w => runCatch actBody w

/-- Sleep rule 1 (lines 194-208): normalize the duration to milliseconds. -/
def slpRule1 (d : Val) : Except Val Val :=
  estep d (containsIn "sleep_duration" d) fun c1 =>
  if !c1 then .ok d else
  estep d (containsIn "sleep_duration_ms" d) fun c2 =>
  if c2 then .ok d else
  estep d (getItem d "sleep_duration") fun dur =>
  estep d (pyGetD d "duration_unit" (.vstr "seconds")) fun uv =>
  estep d (pyLower uv) fun u =>
  estep d (if u = "seconds" ∨ u = "s" then pyMulInt dur 1000
           else if u = "minutes" ∨ u = "min" then
             pyMulInt dur 60 >>= fun x => pyMulInt x 1000
           else if u = "hours" ∨ u = "h" then
             pyMulInt dur 60 >>= fun x => pyMulInt x 60 >>= fun y => pyMulInt y 1000
           else .ok dur) fun w =>
  estep d (setItem d "sleep_duration_ms" w) fun d1 =>
  estep d1 (setItem d1 "duration_unit" (.vstr "ms")) fun d2 =>
  .ok d2

/-- The fixed stage-alias table (lines 216-221). -/
def stage_mapping : List (String × List String) :=
  [("light", ["light", "light_sleep"]),
   ("deep", ["deep", "deep_sleep", "slow_wave"]),
   ("rem", ["rem", "rem_sleep", "rapid_eye_movement"]),
   ("awake", ["awake", "wake", "wakefulness"])]

/-- Inner loop of the stage conversion: every alias present overwrites the
canonical entry (the source has no `break`). -/
def scanAliases (st : Val) (std : String) (vars : List String) (acc : Payload) :
    Except Unit Payload :=
  match vars with
  | [] => .ok acc
  | v :: rest =>
    match containsIn v st with
    | .error e => .error e
    | .ok false => scanAliases st std rest acc
    | .ok true =>
      match getItem st v with
      | .error e => .error e
      | .ok x => scanAliases st std rest (pset acc std x)

/-- Outer loop of the stage conversion (lines 224-227). -/
def buildStages (st : Val) : List (String × List String) → Payload → Except Unit Payload
  | [], acc => .ok acc
  | (std, vars) :: rest, acc =>
    match scanAliases st std vars acc with
    | .error e => .error e
    | .ok acc2 => buildStages st rest acc2

/-- Sleep rule 2 (lines 211-229): normalize the sleep stages. -/
def slpRule2 (d : Val) : Except Val Val :=
  estep d (containsIn "stages" d) fun c =>
  if !c then .ok d else
  estep d (getItem d "stages") fun st =>
  estep d (buildStages st stage_mapping []) fun ns =>
  estep d (setItem d "normalized_stages" (.vmap ns)) fun d1 => .ok d1

/-- The `try` body of `normalize_sleep`. -/
def slpBody : Val → Except Val Val :=
  eseq slpRule1 slpRule2

/-- `normalize_sleep` (source lines 184-234). -/
def normalize_sleep (v : Val) : Val :=
  match v with
  | .vnone => .vnone
  | .vstr s =>
    match jsonDecode s with
    | none => .vstr s
    | some w => runCatch slpBody w
  | w => runCatch slpBody w

/-! ## Model of `convert_to_utc` (source lines 70-87)

The timestamp machinery (`dateutil.parser.parse`, `pytz`, `datetime`) is
third-party library code; it is modelled here.  `parseISO` models
`dateutil.parser.parse` restricted to the ISO-8601 shapes
`YYYY-MM-DD{T or space}HH:MM:SS`, optionally followed by `Z` or `±HH:MM`
(dateutil accepts more formats; no claim depends on them — an input the
model rejects simply models a parse failure).  `astimezone(pytz.UTC)` is
modelled by `toUTCdt`, which shifts the civil fields by the offset with a
single day borrow/carry; shifting past the representable year range models
`datetime`'s `OverflowError`, which the `except` in `convert_to_utc`
catches.  An exception anywhere is the `none` of the result. -/

/-- A Python `datetime`: civil fields plus an optional UTC offset in
minutes (`none` models a naive datetime). -/
structure PyDateTime where
  year : Nat
  month : Nat
  day : Nat
  hour : Nat
  minute : Nat
  second : Nat
  tzOffset : Option Int

/-- Gregorian leap year. -/
def isLeap (y : Nat) : Bool :=
  decide ((y % 4 = 0 ∧ y % 100 ≠ 0) ∨ y % 400 = 0)

/-- Days in a month of a given year. -/
def daysInMonth (y m : Nat) : Nat :=
  if m = 2 then (if isLeap y then 29 else 28)
  else if m = 4 ∨ m = 6 ∨ m = 9 ∨ m = 11 then 30
  else 31

/-- `datetime` accepts only zone offsets strictly between -24 h and 24 h. -/
def offOk : Option Int → Prop
  | none => True
  | some o => -1440 < o ∧ o < 1440

instance (o : Option Int) : Decidable (offOk o) := by
  unfold offOk; cases o <;> infer_instance

/-- The field ranges `datetime` accepts (year 1-9999, as in CPython). -/
def ValidDT (d : PyDateTime) : Prop :=
  1 ≤ d.year ∧ d.year ≤ 9999 ∧ 1 ≤ d.month ∧ d.month ≤ 12 ∧
  1 ≤ d.day ∧ d.day ≤ daysInMonth d.year d.month ∧
  d.hour ≤ 23 ∧ d.minute ≤ 59 ∧ d.second ≤ 59 ∧ offOk d.tzOffset

instance (d : PyDateTime) : Decidable (ValidDT d) := by
  unfold ValidDT; infer_instance

/-- The previous calendar day; `none` below year 1. -/
def prevDay (d : PyDateTime) : Option PyDateTime :=
  if 1 < d.day then some { d with day := d.day - 1 }
  else if 1 < d.month then
    some { d with month := d.month - 1, day := daysInMonth d.year (d.month - 1) }
  else if 1 < d.year then
    some { d with year := d.year - 1, month := 12, day := 31 }
  else none

/-- The next calendar day; `none` above year 9999. -/
def nextDay (d : PyDateTime) : Option PyDateTime :=
  if d.day < daysInMonth d.year d.month then some { d with day := d.day + 1 }
  else if d.month < 12 then some { d with month := d.month + 1, day := 1 }
  else if d.year < 9999 then some { d with year := d.year + 1, month := 1, day := 1 }
  else none

/-- `aware.astimezone(pytz.UTC)`: subtract the offset from the civil
fields, borrowing or carrying at most one day (ISO offsets are below 24 h);
out-of-range results model `OverflowError`. -/
def toUTCdt (d : PyDateTime) (off : Int) : Option PyDateTime :=
  let tot : Int := (d.hour : Int) * 60 + (d.minute : Int) - off
  if tot < 0 then
    (prevDay d).map (fun p =>
      { p with hour := (tot + 1440).toNat / 60,
               minute := (tot + 1440).toNat % 60,
               tzOffset := some 0 })
  else if 1440 ≤ tot then
    (nextDay d).map (fun p =>
      { p with hour := (tot - 1440).toNat / 60,
               minute := (tot - 1440).toNat % 60,
               tzOffset := some 0 })
  else
    some { d with hour := tot.toNat / 60, minute := tot.toNat % 60,
                  tzOffset := some 0 }

/-- Modelled from the spec: the `pytz.timezone('America/New_York')`
localization applied to naive datetimes.  Modelled as the standard-time
offset UTC-05:00 (-300 minutes); daylight-saving transitions are not
modelled, and no claim depends on the localized offset's value. -/
def nyOffsetMin : Int := -300

/-- Read exactly two ASCII digits. -/
def read2 : List Char → Option (Nat × List Char)
  | c1 :: c2 :: rest =>
    if isDig c1 ∧ isDig c2 then some (10 * digVal c1 + digVal c2, rest) else none
  | _ => none

/-- Read exactly four ASCII digits. -/
def read4 : List Char → Option (Nat × List Char)
  | c1 :: c2 :: c3 :: c4 :: rest =>
    if isDig c1 ∧ isDig c2 ∧ isDig c3 ∧ isDig c4 then
      some (1000 * digVal c1 + 100 * digVal c2 + 10 * digVal c3 + digVal c4, rest)
    else none
  | _ => none

/-- Expect one specific character. -/
def expectCh (c : Char) : List Char → Option (List Char)
  | x :: rest => if x = c then some rest else none
  | _ => none

/-- Parse the zone suffix: empty (naive), `Z`, or `±HH:MM`. -/
def parseZone : List Char → Option (Option Int)
  | [] => some none
  | ['Z'] => some (some 0)
  | sg :: rest =>
    if sg = '+' ∨ sg = '-' then
      match read2 rest with
      | none => none
      | some (oh, r1) =>
        match expectCh ':' r1 with
        | none => none
        | some r2 =>
          match read2 r2 with
          | none => none
          | some (om, r3) =>
            if r3.isEmpty ∧ oh ≤ 23 ∧ om ≤ 59 then
              let o : Int := (oh : Int) * 60 + (om : Int)
              some (some (if sg = '-' then -o else o))
            else none
    else none

/-- Expect the date/time separator (`T`, or the space `str(datetime)` and
dateutil both use). -/
def readSep : List Char → Option (List Char)
  | c :: rest => if c = 'T' ∨ c = ' ' then some rest else none
  | _ => none

/-- Parse an ISO-8601 timestamp from characters. -/
def parseISOChars (cs : List Char) : Option PyDateTime :=
  (read4 cs).bind fun p1 =>
  (expectCh '-' p1.2).bind fun r2 =>
  (read2 r2).bind fun p2 =>
  (expectCh '-' p2.2).bind fun r4 =>
  (read2 r4).bind fun p3 =>
  (readSep p3.2).bind fun r6 =>
  (read2 r6).bind fun p4 =>
  (expectCh ':' p4.2).bind fun r8 =>
  (read2 r8).bind fun p5 =>
  (expectCh ':' p5.2).bind fun r10 =>
  (read2 r10).bind fun p6 =>
  (parseZone p6.2).bind fun tz =>
  let d : PyDateTime :=
    { year := p1.1, month := p2.1, day := p3.1,
      hour := p4.1, minute := p5.1, second := p6.1, tzOffset := tz }
  if ValidDT d then some d else none

/-- Modelled from the spec: `dateutil.parser.parse`, restricted to the
ISO-8601 grammar above; `none` models a `ParserError` (including on the
empty string, which dateutil rejects). -/
def parseISO (s : String) : Option PyDateTime :=
  parseISOChars s.data

/-- `convert_to_utc` (source lines 70-87): `None` passes through, a parse
failure or overflow is caught and yields `None`, a naive parse is localized
to the configured zone before conversion to UTC. -/
def convert_to_utc (o : Option String) : Option PyDateTime :=
  match o with
  | none => none
  | some s =>
    match parseISO s with
    | none => none
    | some d =>
      let off : Int :=
        match d.tzOffset with
        | some o => o
        | none => nyOffsetMin
      match toUTCdt d off with
      | some u => some u
      | none => none

/-- Character of a decimal digit. -/
def toDigit (n : Nat) : Char := Char.ofNat (48 + n % 10)

/-- Two-digit zero-padded rendering. -/
def pad2 (n : Nat) : List Char := [toDigit (n / 10), toDigit n]

/-- Four-digit zero-padded rendering. -/
def pad4 (n : Nat) : List Char :=
  [toDigit (n / 1000), toDigit (n / 100), toDigit (n / 10), toDigit n]

/-- The string rendering (`datetime.isoformat`) of a UTC datetime, with its
`+00:00` suffix. -/
def isoformatUTC (d : PyDateTime) : String :=
  String.mk (pad4 d.year ++ '-' :: pad2 d.month ++ '-' :: pad2 d.day ++
    'T' :: pad2 d.hour ++ ':' :: pad2 d.minute ++ ':' :: pad2 d.second ++
    ['+', '0', '0', ':', '0', '0'])

/-! ## The record-level normalization (source lines 243-249)

One row of `wearable_df`, with the columns the normalization step reads,
and the corresponding row of `normalized_df`.  Each `withColumn` applies
its UDF to its own source column on every row; a Spark NULL cell reaches a
UDF as Python `None`. -/

/-- A raw input row. -/
structure RawRecord where
  data_type : Val
  start_date : Option String
  end_date : Option String
  date : Option String
  heart_rate : Val
  activity : Val
  sleep : Val

/-- A row after the `normalized_df` transformation. -/
structure NormalizedRecord where
  data_type : Val
  start_date_utc : Option PyDateTime
  end_date_utc : Option PyDateTime
  date_utc : Option PyDateTime
  normalized_heart_rate : Val
  normalized_activity : Val
  normalized_sleep : Val

/-- The `normalized_df` column map: every UDF is applied to its own column
unconditionally — there is no dispatch on `data_type`. -/
def normalized_df (r : RawRecord) : NormalizedRecord :=
  { data_type := r.data_type,
    start_date_utc := convert_to_utc r.start_date,
    end_date_utc := convert_to_utc r.end_date,
    date_utc := convert_to_utc r.date,
    normalized_heart_rate := normalize_heart_rate r.heart_rate,
    normalized_activity := normalize_activity r.activity,
    normalized_sleep := normalize_sleep r.sleep }

/-! ## Frame machinery and spec-side definitions -/

/-- The payload a `try` block hands back: its result, or the state at the
raise that its `except` handler returns. -/
def outOf : Except Val Val → Val
  | .ok w => w
  | .error w => w

/-- `b` agrees with `a` on every key outside `W` and keeps every key of `a`. -/
def frameRel (W : List String) (a b : Val) : Prop :=
  (∀ k, k ∉ W → pgetV b k = pgetV a k) ∧
  (∀ k, (pgetV a k).isSome → (pgetV b k).isSome)

/-- A rule whose every outcome (normal or raised) only writes keys in `W`. -/
def FramedF (W : List String) (f : Val → Except Val Val) : Prop :=
  ∀ v, frameRel W v (outOf (f v))

/-- The union of keys any normalizer rule writes, as listed by claim C10. -/
def writeSet10 : List String :=
  ["avg_bpm", "unit", "distance_meters", "distance_unit", "total_calories",
   "steps", "sleep_duration_ms", "duration_unit", "normalized_stages"]

/-- Two-level lookup: key `k2` inside the dict stored at key `k1`. -/
def pget2 (v : Val) (k1 k2 : String) : Option Val :=
  match pgetV v k1 with
  | some w => pgetV w k2
  | none => none

/-- Spec-side definition for the amended claim C2: the value of the LAST
alias present in the declared alias order. -/
def lastAliasValue (st : Payload) (vars : List String) : Option Val :=
  match vars.reverse.find? (fun a => (pget st a).isSome) with
  | some a => pget st a
  | none => none

/-- Spec-side definition for claim C6: the distance conversion factor the
claim states (case-insensitive unit, absent unit counts as meters). -/
def specDistanceFactor (u : Option String) : ℚ :=
  match u with
  | none => 1
  | some s =>
    if strLower s = "km" ∨ strLower s = "kilometers" then 1000
    else if strLower s = "mi" ∨ strLower s = "miles" then 160934 / 100
    else if strLower s = "ft" ∨ strLower s = "feet" then 3048 / 10000
    else 1

/-- Spec-side definition for the amended claim C5: the sleep-duration
conversion factor; an ABSENT unit defaults to seconds (the amendment), an
explicit unrecognized unit means the value is already milliseconds. -/
def specSleepFactor (u : Option String) : ℚ :=
  match u with
  | none => 1000
  | some s =>
    if strLower s = "seconds" ∨ strLower s = "s" then 1000
    else if strLower s = "minutes" ∨ strLower s = "min" then 60000
    else if strLower s = "hours" ∨ strLower s = "h" then 3600000
    else 1

/-! ## Basic lemmas -/

theorem frameRel_refl (W : List String) (a : Val) : frameRel W a a :=
  ⟨fun _ _ => rfl, fun _ h => h⟩

theorem frameRel_trans {W : List String} {a b c : Val}
    (h1 : frameRel W a b) (h2 : frameRel W b c) : frameRel W a c :=
  ⟨fun k hk => (h2.1 k hk).trans (h1.1 k hk), fun k hk => h2.2 k (h1.2 k hk)⟩

theorem frameRel_mono {V W : List String} {a b : Val}
    (hsub : ∀ k, k ∈ V → k ∈ W) (h : frameRel V a b) : frameRel W a b :=
  ⟨fun k hk => h.1 k (fun hv => hk (hsub k hv)), h.2⟩

theorem pget_pset (m : Payload) (k j : String) (x : Val) :
    pget (pset m k x) j = if k = j then some x else pget m j := by
  simp [pset, pget]

theorem setItem_frame {W : List String} {a b : Val} {k : String} {x : Val}
    (hk : k ∈ W) (h : setItem a k x = .ok b) : frameRel W a b := by
  cases a <;> simp [setItem] at h
  subst h
  constructor
  · intro j hj
    have hkj : k ≠ j := fun he => hj (he ▸ hk)
    simp [pgetV, pget_pset, hkj]
  · intro j hj
    by_cases hkj : k = j <;> simp [pgetV, pget_pset, hkj] at hj ⊢
    exact hj

theorem framed_eseq {W : List String} {f g : Val → Except Val Val}
    (hf : FramedF W f) (hg : FramedF W g) : FramedF W (eseq f g) := by
  intro v
  have h1 := hf v
  unfold eseq
  cases hv : f v with
  | ok w =>
    rw [hv] at h1
    exact frameRel_trans h1 (hg w)
  | error w =>
    rw [hv] at h1
    exact h1

theorem framed_runCatch {W : List String} {f : Val → Except Val Val}
    (hf : FramedF W f) (v : Val) : frameRel W v (runCatch f v) := by
  have h := hf v
  unfold outOf at h
  unfold runCatch
  cases hv : f v with
  | ok w => rw [hv] at h; exact h
  | error w => rw [hv] at h; exact h

/-! ## Claim theorems: closed evaluations -/

/-- C1: the normalized-to-BPM rule is claimed to fire for every payload with
unit `normalized` and `avg_normalized` in (0,1); on the scenario input the
code leaves the payload unchanged (no `avg_bpm`, unit still `normalized`)
because the guard additionally demands a literal key `normalized`.  This
evaluates the embedded code at the failing input. -/
theorem c1_code_eval :
    pgetV (normalize_heart_rate
        (.vmap [("avg_normalized", .vnum (1/2)), ("unit", .vstr "normalized")]))
      "avg_bpm" = none ∧
    pgetV (normalize_heart_rate
        (.vmap [("avg_normalized", .vnum (1/2)), ("unit", .vstr "normalized")]))
      "unit" = some (.vstr "normalized") := by
  constructor <;> rfl

/-- C9: the error fallback is not atomic — on
`{"distance": 2, "distance_unit": "km", "steps": "abc"}` the distance rule
mutates the payload, then the steps coercion raises, and the returned
mapping keeps the earlier mutations. -/
theorem c9_non_atomic :
    pgetV (normalize_activity (.vmap
        [("distance", .vint 2), ("distance_unit", .vstr "km"), ("steps", .vstr "abc")]))
      "distance_meters" = some (.vint 2000) ∧
    pgetV (normalize_activity (.vmap
        [("distance", .vint 2), ("distance_unit", .vstr "km"), ("steps", .vstr "abc")]))
      "distance_unit" = some (.vstr "meters") ∧
    pgetV (normalize_activity (.vmap
        [("distance", .vint 2), ("distance_unit", .vstr "km"), ("steps", .vstr "abc")]))
      "steps" = some (.vstr "abc") := by
  refine ⟨?_, ?_, ?_⟩ <;> rfl

/-- C2 counterexample: with both `deep` and `slow_wave` present the code
assigns the LAST alias's value (200), not the first's (100) — the inner
loop has no `break`. -/
theorem c2_counterexample :
    pget2 (normalize_sleep (.vmap
        [("stages", .vmap [("deep", .vint 100), ("slow_wave", .vint 200)])]))
      "normalized_stages" "deep" = some (.vint 200) ∧
    Val.vint 200 ≠ Val.vint 100 := by
  refine ⟨rfl, ?_⟩
  intro h
  injection h with h1
  exact absurd h1 (by decide)

/-- C4 counterexample: a payload that already carries `sleep_duration_ms`
keeps its source `duration_unit` (`seconds`), with the canonical value field
populated — the unit field IS left at a source-unit value. -/
theorem c4_counterexample :
    pgetV (normalize_sleep (.vmap
        [("sleep_duration_ms", .vint 1000), ("duration_unit", .vstr "seconds")]))
      "sleep_duration_ms" = some (.vint 1000) ∧
    pgetV (normalize_sleep (.vmap
        [("sleep_duration_ms", .vint 1000), ("duration_unit", .vstr "seconds")]))
      "duration_unit" = some (.vstr "seconds") ∧
    Val.vstr "seconds" ≠ Val.vstr "ms" := by
  refine ⟨rfl, rfl, ?_⟩
  intro h
  injection h with h1
  exact absurd h1 (by decide)

/-- C5 counterexample: with `duration_unit` absent the code multiplies by
1000 (default unit `seconds`), it does not copy the value as milliseconds:
`{"sleep_duration": 5}` yields 5000, the claim says 5. -/
theorem c5_counterexample :
    pgetV (normalize_sleep (.vmap [("sleep_duration", .vint 5)]))
      "sleep_duration_ms" = some (.vint 5000) ∧
    Val.vint 5000 ≠ Val.vint 5 := by
  refine ⟨rfl, ?_⟩
  intro h
  injection h with h1
  exact absurd h1 (by decide)

/-- C3 counterexample: a record with the unrecognized tag `workout` and a
non-null `heart_rate` column gets a populated canonical field (`avg_bpm`)
and a modified payload — the code applies every domain normalizer to its
own column and never dispatches on `data_type`. -/
theorem c3_counterexample :
    pgetV (normalized_df
        { data_type := .vstr "workout", start_date := none, end_date := none,
          date := none, heart_rate := .vmap [("avg_hr", .vint 70)],
          activity := .vnone, sleep := .vnone }).normalized_heart_rate
      "avg_bpm" = some (.vint 70) ∧
    pgetV (Val.vmap [("avg_hr", .vint 70)]) "avg_bpm" = none := by
  constructor <;> rfl

/-- C7: the timestamp normalizer maps `None` and the empty string to `None`
without raising, and any string the parser rejects also yields `None` — in
this embedding every exception path of `convert_to_utc` is a `none` result,
so the function never raises to its caller. -/
theorem c7_null_empty_unparsable :
    convert_to_utc none = none ∧
    convert_to_utc (some "") = none ∧
    ∀ s : String, parseISO s = none → convert_to_utc (some s) = none := by
  refine ⟨rfl, rfl, ?_⟩
  intro s h
  simp only [convert_to_utc, h]

/-- Witness for C7 at the concrete unparsable input `"not a timestamp"`. -/
theorem c7_witness :
    convert_to_utc (some "not a timestamp") = none :=
  c7_null_empty_unparsable.2.2 "not a timestamp" (by rfl)

/-! ## Lemmas for the timestamp round trip (claim C8) -/

theorem toDigit_toNat (n : Nat) : (toDigit n).toNat = 48 + n % 10 := by
  have h : n % 10 < 10 := Nat.mod_lt _ (by norm_num)
  unfold toDigit
  generalize n % 10 = k at h ⊢
  interval_cases k <;> rfl

theorem isDig_toDigit (n : Nat) : isDig (toDigit n) = true := by
  simp only [isDig, toDigit_toNat, decide_eq_true_eq]
  omega

theorem digVal_toDigit (n : Nat) : digVal (toDigit n) = n % 10 := by
  simp only [digVal, toDigit_toNat]
  omega

theorem read2_pad2 (n : Nat) (h : n < 100) (rest : List Char) :
    read2 (pad2 n ++ rest) = some (n, rest) := by
  simp only [pad2, List.cons_append, List.nil_append, read2, isDig_toDigit,
    digVal_toDigit, and_self, if_true]
  have e : 10 * (n / 10 % 10) + n % 10 = n := by omega
  rw [e]

theorem read4_pad4 (n : Nat) (h : n < 10000) (rest : List Char) :
    read4 (pad4 n ++ rest) = some (n, rest) := by
  simp only [pad4, List.cons_append, List.nil_append, read4, isDig_toDigit,
    digVal_toDigit, and_self, if_true]
  have e : 1000 * (n / 1000 % 10) + 100 * (n / 100 % 10) + 10 * (n / 10 % 10) + n % 10 = n := by
    omega
  rw [e]

theorem expectCh_cons (c : Char) (rest : List Char) :
    expectCh c (c :: rest) = some rest := by
  simp [expectCh]

theorem readSep_T (rest : List Char) : readSep ('T' :: rest) = some rest := by
  simp [readSep]

theorem parseZone_utc : parseZone ['+', '0', '0', ':', '0', '0'] = some (some 0) := by
  rfl

theorem daysInMonth_bounds (y m : Nat) : 28 ≤ daysInMonth y m ∧ daysInMonth y m ≤ 31 := by
  unfold daysInMonth
  split
  · split <;> omega
  · split <;> omega

theorem parseISO_isoformatUTC (u : PyDateTime) (hv : ValidDT u)
    (htz : u.tzOffset = some 0) : parseISO (isoformatUTC u) = some u := by
  obtain ⟨y, mo, dy, hh, mi, ss, tz⟩ := u
  simp only at htz
  subst htz
  obtain ⟨h1, h2, h3, h4, h5, h6, h7, h8, h9, -⟩ := hv
  simp only at h1 h2 h3 h4 h5 h6 h7 h8 h9
  have hdy : dy < 100 := by have := daysInMonth_bounds y mo; omega
  unfold parseISO isoformatUTC parseISOChars
  simp only [List.append_assoc, List.cons_append, List.nil_append,
    read4_pad4 y (by omega), read2_pad2 mo (by omega), read2_pad2 dy hdy,
    read2_pad2 hh (by omega), read2_pad2 mi (by omega), read2_pad2 ss (by omega),
    expectCh_cons, readSep_T, parseZone_utc, Option.some_bind]
  rw [if_pos]
  exact ⟨h1, h2, h3, h4, h5, h6, h7, h8, h9, by norm_num [offOk]⟩
theorem daysInMonth_twelve (y : Nat) : daysInMonth y 12 = 31 := by
  norm_num [daysInMonth]

theorem daysInMonth_one (y : Nat) : daysInMonth y 1 = 31 := by
  norm_num [daysInMonth]

theorem prevDay_fields (d : PyDateTime) (hv : ValidDT d) (p : PyDateTime)
    (h : prevDay d = some p) :
    1 ≤ p.year ∧ p.year ≤ 9999 ∧ 1 ≤ p.month ∧ p.month ≤ 12 ∧
    1 ≤ p.day ∧ p.day ≤ daysInMonth p.year p.month ∧ p.second = d.second := by
  obtain ⟨h1, h2, h3, h4, h5, h6, h7, h8, h9, -⟩ := hv
  unfold prevDay at h
  split at h
  · injection h with h
    subst h
    refine ⟨?_, ?_, ?_, ?_, ?_, ?_, ?_⟩ <;> (try dsimp only) <;> omega
  · split at h
    · injection h with h
      subst h
      have hb := daysInMonth_bounds d.year (d.month - 1)
      refine ⟨?_, ?_, ?_, ?_, ?_, ?_, ?_⟩ <;> (try dsimp only) <;> omega
    · split at h
      · injection h with h
        subst h
        have hb := daysInMonth_twelve (d.year - 1)
        refine ⟨?_, ?_, ?_, ?_, ?_, ?_, ?_⟩ <;> (try dsimp only) <;> omega
      · exact absurd h (by simp)

theorem nextDay_fields (d : PyDateTime) (hv : ValidDT d) (p : PyDateTime)
    (h : nextDay d = some p) :
    1 ≤ p.year ∧ p.year ≤ 9999 ∧ 1 ≤ p.month ∧ p.month ≤ 12 ∧
    1 ≤ p.day ∧ p.day ≤ daysInMonth p.year p.month ∧ p.second = d.second := by
  obtain ⟨h1, h2, h3, h4, h5, h6, h7, h8, h9, -⟩ := hv
  unfold nextDay at h
  split at h
  · injection h with h
    subst h
    refine ⟨?_, ?_, ?_, ?_, ?_, ?_, ?_⟩ <;> (try dsimp only) <;> omega
  · split at h
    · injection h with h
      subst h
      have hb := daysInMonth_bounds d.year (d.month + 1)
      refine ⟨?_, ?_, ?_, ?_, ?_, ?_, ?_⟩ <;> (try dsimp only) <;> omega
    · split at h
      · injection h with h
        subst h
        have hb := daysInMonth_one (d.year + 1)
        refine ⟨?_, ?_, ?_, ?_, ?_, ?_, ?_⟩ <;> (try dsimp only) <;> omega
      · exact absurd h (by simp)

theorem toUTCdt_valid (d : PyDateTime) (off : Int) (hv : ValidDT d)
    (hoff : -1440 < off ∧ off < 1440) (u : PyDateTime)
    (h : toUTCdt d off = some u) : ValidDT u ∧ u.tzOffset = some 0 := by
  have hv2 := hv
  obtain ⟨h1, h2, h3, h4, h5, h6, h7, h8, h9, -⟩ := hv2
  simp only [toUTCdt] at h
  split at h
  · -- borrow a day
    rename_i hneg
    cases hp : prevDay d with
    | none => rw [hp] at h; simp at h
    | some p =>
      rw [hp] at h
      simp only [Option.map_some'] at h
      injection h with h
      subst h
      obtain ⟨p1, p2, p3, p4, p5, p6, p7⟩ := prevDay_fields d hv p hp
      refine ⟨⟨p1, p2, p3, p4, p5, p6, ?_, ?_, ?_, ?_⟩, rfl⟩
      · show ((d.hour : Int) * 60 + (d.minute : Int) - off + 1440).toNat / 60 ≤ 23
        omega
      · show ((d.hour : Int) * 60 + (d.minute : Int) - off + 1440).toNat % 60 ≤ 59
        omega
      · show p.second ≤ 59
        rw [p7]; exact h9
      · show offOk (some 0)
        norm_num [offOk]
  · -- carry a day
    rename_i hneg
    split at h
    · rename_i hge
      cases hp : nextDay d with
      | none => rw [hp] at h; simp at h
      | some p =>
        rw [hp] at h
        simp only [Option.map_some'] at h
        injection h with h
        subst h
        obtain ⟨p1, p2, p3, p4, p5, p6, p7⟩ := nextDay_fields d hv p hp
        refine ⟨⟨p1, p2, p3, p4, p5, p6, ?_, ?_, ?_, ?_⟩, rfl⟩
        · show ((d.hour : Int) * 60 + (d.minute : Int) - off - 1440).toNat / 60 ≤ 23
          omega
        · show ((d.hour : Int) * 60 + (d.minute : Int) - off - 1440).toNat % 60 ≤ 59
          omega
        · show p.second ≤ 59
          rw [p7]; exact h9
        · show offOk (some 0)
          norm_num [offOk]
    · -- same day
      rename_i hge
      injection h with h
      subst h
      refine ⟨⟨h1, h2, h3, h4, h5, h6, ?_, ?_, h9, ?_⟩, rfl⟩
      · show ((d.hour : Int) * 60 + (d.minute : Int) - off).toNat / 60 ≤ 23
        omega
      · show ((d.hour : Int) * 60 + (d.minute : Int) - off).toNat % 60 ≤ 59
        omega
      · show offOk (some 0)
        norm_num [offOk]

theorem toUTCdt_zero (u : PyDateTime) (hv : ValidDT u)
    (htz : u.tzOffset = some 0) : toUTCdt u 0 = some u := by
  obtain ⟨h1, h2, h3, h4, h5, h6, h7, h8, h9, -⟩ := hv
  simp only [toUTCdt]
  rw [if_neg (show ¬((u.hour : Int) * 60 + (u.minute : Int) - 0 < 0) by omega)]
  rw [if_neg (show ¬((1440 : Int) ≤ (u.hour : Int) * 60 + (u.minute : Int) - 0) by omega)]
  have e1 : ((u.hour : Int) * 60 + (u.minute : Int) - 0).toNat / 60 = u.hour := by omega
  have e2 : ((u.hour : Int) * 60 + (u.minute : Int) - 0).toNat % 60 = u.minute := by omega
  rw [e1, e2, ← htz]

theorem parseISO_valid (s : String) (d : PyDateTime) (h : parseISO s = some d) :
    ValidDT d := by
  unfold parseISO parseISOChars at h
  rw [Option.bind_eq_some] at h
  obtain ⟨p1, -, h⟩ := h
  rw [Option.bind_eq_some] at h
  obtain ⟨r2, -, h⟩ := h
  rw [Option.bind_eq_some] at h
  obtain ⟨p2, -, h⟩ := h
  rw [Option.bind_eq_some] at h
  obtain ⟨r4, -, h⟩ := h
  rw [Option.bind_eq_some] at h
  obtain ⟨p3, -, h⟩ := h
  rw [Option.bind_eq_some] at h
  obtain ⟨r6, -, h⟩ := h
  rw [Option.bind_eq_some] at h
  obtain ⟨p4, -, h⟩ := h
  rw [Option.bind_eq_some] at h
  obtain ⟨r8, -, h⟩ := h
  rw [Option.bind_eq_some] at h
  obtain ⟨p5, -, h⟩ := h
  rw [Option.bind_eq_some] at h
  obtain ⟨r10, -, h⟩ := h
  rw [Option.bind_eq_some] at h
  obtain ⟨p6, -, h⟩ := h
  rw [Option.bind_eq_some] at h
  obtain ⟨tz, -, h⟩ := h
  dsimp only at h
  split at h
  · injection h with h
    subst h
    assumption
  · exact absurd h (by simp)

theorem c8_core (d : PyDateTime) (off : Int) (hvd : ValidDT d)
    (hoffb : -1440 < off ∧ off < 1440) (u : PyDateTime)
    (ht : toUTCdt d off = some u) :
    convert_to_utc (some (isoformatUTC u)) = some u := by
  have hu := toUTCdt_valid d off hvd hoffb u ht
  simp only [convert_to_utc]
  rw [parseISO_isoformatUTC u hu.1 hu.2]
  dsimp only
  rw [hu.2]
  dsimp only
  rw [toUTCdt_zero u hu.1 hu.2]

set_option maxRecDepth 4000 in
/-- C8: idempotence of the timestamp normalizer — whenever `convert_to_utc`
succeeds on a string (in particular on every valid ISO-8601 timestamp with
an explicit zone offset), re-normalizing the ISO string rendering of its
own UTC output yields exactly the same UTC datetime, hence the identical
instant. -/
theorem c8_idempotent (s : String) (u : PyDateTime)
    (h : convert_to_utc (some s) = some u) :
    convert_to_utc (some (isoformatUTC u)) = some u := by
  simp only [convert_to_utc] at h
  cases hp : parseISO s with
  | none => rw [hp] at h; exact absurd h (by simp)
  | some d =>
    rw [hp] at h
    dsimp only at h
    have hvd := parseISO_valid s d hp
    have hoo : offOk d.tzOffset := hvd.2.2.2.2.2.2.2.2.2
    rcases htz : d.tzOffset with _ | o
    · rw [htz] at h
      dsimp only at h
      cases ht : toUTCdt d nyOffsetMin with
      | none => rw [ht] at h; exact absurd h (by simp)
      | some w =>
        rw [ht] at h
        dsimp only at h
        injection h with h
        subst h
        exact c8_core d nyOffsetMin hvd (by norm_num [nyOffsetMin]) w ht
    · rw [htz] at h
      dsimp only at h
      rw [htz] at hoo
      cases ht : toUTCdt d o with
      | none => rw [ht] at h; exact absurd h (by simp)
      | some w =>
        rw [ht] at h
        dsimp only at h
        injection h with h
        subst h
        exact c8_core d o hvd hoo w ht

/-- Witness for C8 at the concrete offset-bearing ISO input
`2024-03-01T10:00:00-05:00`, whose UTC output renders and re-normalizes to
the same instant. -/
theorem c8_witness :
    convert_to_utc (some (isoformatUTC
        ⟨2024, 3, 1, 15, 0, 0, some 0⟩)) = some ⟨2024, 3, 1, 15, 0, 0, some 0⟩ :=
  c8_idempotent "2024-03-01T10:00:00-05:00" ⟨2024, 3, 1, 15, 0, 0, some 0⟩ (by rfl)

/-! ## Frame lemmas: each rule writes only its own keys -/

theorem framed_mono {V W : List String} {f : Val → Except Val Val}
    (hsub : ∀ k, k ∈ V → k ∈ W) (h : FramedF V f) : FramedF W f :=
  fun v => frameRel_mono hsub (h v)

theorem estep_frame {α : Type} {W : List String} {b st : Val}
    {e : Except Unit α} {k : α → Except Val Val}
    (hst : frameRel W b st)
    (hok : ∀ a, e = .ok a → frameRel W b (outOf (k a))) :
    frameRel W b (outOf (estep st e k)) := by
  unfold estep
  cases he : e with
  | error u => exact hst
  | ok a => exact hok a he

theorem hrRule1_framed : FramedF ["avg_bpm", "unit"] hrRule1 := by
  intro v
  have h0 : frameRel ["avg_bpm", "unit"] v v := frameRel_refl _ _
  unfold hrRule1
  apply estep_frame h0
  intro c1 _
  cases c1
  · exact h0
  · try dsimp only
    apply estep_frame h0
    intro u _
    cases hvi : valIsStr u "normalized"
    · try dsimp only
      exact h0
    · try dsimp only
      apply estep_frame h0
      intro a _
      apply estep_frame h0
      intro g1 _
      cases g1
      · exact h0
      · try dsimp only
        apply estep_frame h0
        intro g2 _
        cases g2
        · exact h0
        · try dsimp only
          apply estep_frame h0
          intro x _
          apply estep_frame h0
          intro p _
          apply estep_frame h0
          intro sm _
          apply estep_frame h0
          intro d1 hd1
          have h1 := frameRel_trans h0 (setItem_frame (by simp) hd1)
          apply estep_frame h1
          intro d2 hd2
          exact frameRel_trans h1 (setItem_frame (by simp) hd2)

theorem hrRule2_framed : FramedF ["avg_bpm", "unit"] hrRule2 := by
  intro v
  have h0 : frameRel ["avg_bpm", "unit"] v v := frameRel_refl _ _
  unfold hrRule2
  apply estep_frame h0
  intro c _
  cases c
  · try dsimp only
    apply estep_frame h0
    intro d1 hd1
    exact frameRel_trans h0 (setItem_frame (by simp) hd1)
  · try dsimp only
    apply estep_frame h0
    intro u _
    apply estep_frame h0
    intro s _
    by_cases hs : (s = "bpm" ∨ s = "beats_per_minute" ∨ s = "beats per minute")
    · rw [if_pos hs]
      apply estep_frame h0
      intro d1 hd1
      exact frameRel_trans h0 (setItem_frame (by simp) hd1)
    · rw [if_neg hs]
      exact h0

theorem hrRule3_framed : FramedF ["avg_bpm", "unit"] hrRule3 := by
  intro v
  have h0 : frameRel ["avg_bpm", "unit"] v v := frameRel_refl _ _
  unfold hrRule3
  apply estep_frame h0
  intro c1 _
  cases c1
  · exact h0
  · try dsimp only
    apply estep_frame h0
    intro c2 _
    cases c2
    · try dsimp only
      apply estep_frame h0
      intro x _
      apply estep_frame h0
      intro d1 hd1
      exact frameRel_trans h0 (setItem_frame (by simp) hd1)
    · try dsimp only
      exact h0

theorem hrRule4_framed : FramedF ["avg_bpm", "unit"] hrRule4 := by
  intro v
  have h0 : frameRel ["avg_bpm", "unit"] v v := frameRel_refl _ _
  unfold hrRule4
  apply estep_frame h0
  intro cb _
  cases cb
  · try dsimp only
    apply estep_frame h0
    intro cd _
    cases cd
    · exact h0
    · try dsimp only
      apply estep_frame h0
      intro dps _
      cases hpt : pyTruthy dps
      · try dsimp only
        exact h0
      · try dsimp only
        apply estep_frame h0
        intro n _
        by_cases hn : n = 0
        · rw [if_pos hn]
          exact h0
        · rw [if_neg hn]
          apply estep_frame h0
          intro elems _
          apply estep_frame h0
          intro vals _
          cases hve : vals.isEmpty
          · try dsimp only
            apply estep_frame h0
            intro s _
            apply estep_frame h0
            intro q _
            apply estep_frame h0
            intro d1 hd1
            exact frameRel_trans h0 (setItem_frame (by simp) hd1)
          · try dsimp only
            exact h0
  · try dsimp only
    exact h0

theorem actRule1_framed : FramedF ["distance_meters", "distance_unit"] actRule1 := by
  intro v
  have h0 : frameRel ["distance_meters", "distance_unit"] v v := frameRel_refl _ _
  unfold actRule1
  apply estep_frame h0
  intro c _
  cases c
  · exact h0
  · try dsimp only
    apply estep_frame h0
    intro dist _
    apply estep_frame h0
    intro uv _
    apply estep_frame h0
    intro u _
    apply estep_frame h0
    intro w _
    apply estep_frame h0
    intro d1 hd1
    have h1 := frameRel_trans h0 (setItem_frame (by simp) hd1)
    apply estep_frame h1
    intro d2 hd2
    exact frameRel_trans h1 (setItem_frame (by simp) hd2)

theorem actRule2_framed : FramedF ["total_calories"] actRule2 := by
  intro v
  have h0 : frameRel ["total_calories"] v v := frameRel_refl _ _
  unfold actRule2
  apply estep_frame h0
  intro cCal _
  apply estep_frame h0
  intro cTot1 _
  by_cases hc : (cCal = true ∧ (!cTot1) = true)
  · rw [if_pos hc]
    apply estep_frame h0
    intro x _
    apply estep_frame h0
    intro d1 hd1
    exact frameRel_trans h0 (setItem_frame (by simp) hd1)
  · rw [if_neg hc]
    apply estep_frame h0
    intro cAct _
    cases cAct
    · exact h0
    · try dsimp only
      apply estep_frame h0
      intro cTot2 _
      cases cTot2
      · try dsimp only
        apply estep_frame h0
        intro cDur _
        cases cDur
        · try dsimp only
          apply estep_frame h0
          intro x _
          apply estep_frame h0
          intro d1 hd1
          exact frameRel_trans h0 (setItem_frame (by simp) hd1)
        · try dsimp only
          apply estep_frame h0
          intro dur _
          apply estep_frame h0
          intro hours _
          apply estep_frame h0
          intro act _
          apply estep_frame h0
          intro tot _
          apply estep_frame h0
          intro d1 hd1
          exact frameRel_trans h0 (setItem_frame (by simp) hd1)
      · try dsimp only
        exact h0

theorem actRule3_framed : FramedF ["steps"] actRule3 := by
  intro v
  have h0 : frameRel ["steps"] v v := frameRel_refl _ _
  unfold actRule3
  apply estep_frame h0
  intro c _
  cases c
  · exact h0
  · try dsimp only
    apply estep_frame h0
    intro x _
    match x with
    | .vnone => exact h0
    | .vbool b =>
      apply estep_frame h0
      intro q _
      apply estep_frame h0
      intro d1 hd1
      exact frameRel_trans h0 (setItem_frame (by simp) hd1)
    | .vint n =>
      apply estep_frame h0
      intro q _
      apply estep_frame h0
      intro d1 hd1
      exact frameRel_trans h0 (setItem_frame (by simp) hd1)
    | .vnum r =>
      apply estep_frame h0
      intro q _
      apply estep_frame h0
      intro d1 hd1
      exact frameRel_trans h0 (setItem_frame (by simp) hd1)
    | .vstr s =>
      apply estep_frame h0
      intro q _
      apply estep_frame h0
      intro d1 hd1
      exact frameRel_trans h0 (setItem_frame (by simp) hd1)
    | .vlist l =>
      apply estep_frame h0
      intro q _
      apply estep_frame h0
      intro d1 hd1
      exact frameRel_trans h0 (setItem_frame (by simp) hd1)
    | .vmap mm =>
      apply estep_frame h0
      intro q _
      apply estep_frame h0
      intro d1 hd1
      exact frameRel_trans h0 (setItem_frame (by simp) hd1)

theorem slpRule1_framed : FramedF ["sleep_duration_ms", "duration_unit"] slpRule1 := by
  intro v
  have h0 : frameRel ["sleep_duration_ms", "duration_unit"] v v := frameRel_refl _ _
  unfold slpRule1
  apply estep_frame h0
  intro c1 _
  cases c1
  · exact h0
  · try dsimp only
    apply estep_frame h0
    intro c2 _
    cases c2
    · try dsimp only
      apply estep_frame h0
      intro dur _
      apply estep_frame h0
      intro uv _
      apply estep_frame h0
      intro u _
      apply estep_frame h0
      intro w _
      apply estep_frame h0
      intro d1 hd1
      have h1 := frameRel_trans h0 (setItem_frame (by simp) hd1)
      apply estep_frame h1
      intro d2 hd2
      exact frameRel_trans h1 (setItem_frame (by simp) hd2)
    · try dsimp only
      exact h0

theorem slpRule2_framed : FramedF ["normalized_stages"] slpRule2 := by
  intro v
  have h0 : frameRel ["normalized_stages"] v v := frameRel_refl _ _
  unfold slpRule2
  apply estep_frame h0
  intro c _
  cases c
  · exact h0
  · try dsimp only
    apply estep_frame h0
    intro st _
    apply estep_frame h0
    intro ns _
    apply estep_frame h0
    intro d1 hd1
    exact frameRel_trans h0 (setItem_frame (by simp) hd1)

/-! ## Computation lemmas for the conversion rules -/

theorem estep_ok {α : Type} {st : Val} {e : Except Unit α} {k : α → Except Val Val}
    {a : α} (h : e = .ok a) : estep st e k = k a := by
  unfold estep
  rw [h]

theorem pyMulInt_asRat {v : Val} {r : ℚ} (h : asRat v = some r) (k : Int) :
    ∃ w, pyMulInt v k = .ok w ∧ asRat w = some (r * (k : ℚ)) := by
  cases v with
  | vint n =>
    refine ⟨.vint (n * k), rfl, ?_⟩
    simp only [asRat, Option.some.injEq] at h ⊢
    rw [← h]
    push_cast
    ring
  | vnum q =>
    refine ⟨.vnum (q * (k : ℚ)), rfl, ?_⟩
    simp only [asRat, Option.some.injEq] at h ⊢
    rw [← h]
  | vbool b =>
    refine ⟨.vint ((if b then 1 else 0) * k), rfl, ?_⟩
    simp only [asRat, Option.some.injEq] at h ⊢
    rw [← h]
    cases b <;> norm_num
  | vnone => simp [asRat] at h
  | vstr s => simp [asRat] at h
  | vlist l => simp [asRat] at h
  | vmap mm => simp [asRat] at h

theorem pyMulRat_asRat {v : Val} {r : ℚ} (h : asRat v = some r) (q : ℚ) :
    pyMulRat v q = .ok (.vnum (r * q)) := by
  unfold pyMulRat
  rw [h]

theorem actRule1_spec (m : Payload) (v : Val) (r : ℚ) (u : Option String)
    (hv : pget m "distance" = some v) (hr : asRat v = some r)
    (hu : pget m "distance_unit" = u.map Val.vstr) :
    ∃ w, actRule1 (.vmap m) =
        .ok (.vmap (pset (pset m "distance_meters" w) "distance_unit" (.vstr "meters"))) ∧
      asRat w = some (r * specDistanceFactor u) := by
  unfold actRule1
  rw [estep_ok (show containsIn "distance" (.vmap m) = .ok true by
    simp [containsIn, hv])]
  rw [estep_ok (show getItem (.vmap m) "distance" = .ok v by simp [getItem, hv])]
  rw [estep_ok (show pyGetD (.vmap m) "distance_unit" (.vstr "meters")
      = .ok (.vstr (u.getD "meters")) by cases u <;> simp [pyGetD, hu])]
  rw [estep_ok (show pyLower (.vstr (u.getD "meters"))
      = .ok (strLower (u.getD "meters")) from rfl)]
  rcases u with _ | s
  · -- absent unit: default "meters", the else branch copies the value
    rw [estep_ok (show (if strLower ((none : Option String).getD "meters") = "km" ∨
          strLower ((none : Option String).getD "meters") = "kilometers" then pyMulInt v 1000
        else if strLower ((none : Option String).getD "meters") = "mi" ∨
          strLower ((none : Option String).getD "meters") = "miles" then pyMulRat v (160934 / 100)
        else if strLower ((none : Option String).getD "meters") = "ft" ∨
          strLower ((none : Option String).getD "meters") = "feet" then pyMulRat v (3048 / 10000)
        else .ok v) = .ok v by
      rw [if_neg (by decide), if_neg (by decide), if_neg (by decide)])]
    rw [estep_ok (show setItem (.vmap m) "distance_meters" v = .ok _ from rfl)]
    rw [estep_ok (show setItem (.vmap (pset m "distance_meters" v)) "distance_unit"
        (.vstr "meters") = .ok _ from rfl)]
    exact ⟨v, rfl, by rw [hr]; simp [specDistanceFactor]⟩
  · -- explicit unit string: mirror the case split of the claimed factor
    simp only [Option.getD_some]
    by_cases h1 : (strLower s = "km" ∨ strLower s = "kilometers")
    · obtain ⟨w, hw, hwr⟩ := pyMulInt_asRat hr 1000
      rw [estep_ok (show _ = .ok w by rw [if_pos h1]; exact hw)]
      rw [estep_ok (show setItem (.vmap m) "distance_meters" w = .ok _ from rfl)]
      rw [estep_ok (show setItem (.vmap (pset m "distance_meters" w)) "distance_unit"
          (.vstr "meters") = .ok _ from rfl)]
      refine ⟨w, rfl, ?_⟩
      rw [hwr]
      norm_num [specDistanceFactor, h1]
    · by_cases h2 : (strLower s = "mi" ∨ strLower s = "miles")
      · rw [estep_ok (show _ = .ok (Val.vnum (r * (160934 / 100))) by
          rw [if_neg h1, if_pos h2]; exact pyMulRat_asRat hr _)]
        rw [estep_ok (show setItem (.vmap m) "distance_meters"
            (Val.vnum (r * (160934 / 100))) = .ok _ from rfl)]
        rw [estep_ok (show setItem (.vmap (pset m "distance_meters"
            (Val.vnum (r * (160934 / 100))))) "distance_unit"
            (.vstr "meters") = .ok _ from rfl)]
        refine ⟨_, rfl, ?_⟩
        simp only [asRat, Option.some.injEq]
        norm_num [specDistanceFactor, h1, h2]
      · by_cases h3 : (strLower s = "ft" ∨ strLower s = "feet")
        · rw [estep_ok (show _ = .ok (Val.vnum (r * (3048 / 10000))) by
            rw [if_neg h1, if_neg h2, if_pos h3]; exact pyMulRat_asRat hr _)]
          rw [estep_ok (show setItem (.vmap m) "distance_meters"
              (Val.vnum (r * (3048 / 10000))) = .ok _ from rfl)]
          rw [estep_ok (show setItem (.vmap (pset m "distance_meters"
              (Val.vnum (r * (3048 / 10000))))) "distance_unit"
              (.vstr "meters") = .ok _ from rfl)]
          refine ⟨_, rfl, ?_⟩
          simp only [asRat, Option.some.injEq]
          norm_num [specDistanceFactor, h1, h2, h3]
        · rw [estep_ok (show _ = .ok v by rw [if_neg h1, if_neg h2, if_neg h3])]
          rw [estep_ok (show setItem (.vmap m) "distance_meters" v = .ok _ from rfl)]
          rw [estep_ok (show setItem (.vmap (pset m "distance_meters" v)) "distance_unit"
              (.vstr "meters") = .ok _ from rfl)]
          refine ⟨v, rfl, ?_⟩
          rw [hr]
          norm_num [specDistanceFactor, h1, h2, h3]

theorem slpRule1_spec (m : Payload) (v : Val) (r : ℚ) (u : Option String)
    (hv : pget m "sleep_duration" = some v) (hms : pget m "sleep_duration_ms" = none)
    (hr : asRat v = some r) (hu : pget m "duration_unit" = u.map Val.vstr) :
    ∃ w, slpRule1 (.vmap m) =
        .ok (.vmap (pset (pset m "sleep_duration_ms" w) "duration_unit" (.vstr "ms"))) ∧
      asRat w = some (r * specSleepFactor u) := by
  unfold slpRule1
  rw [estep_ok (show containsIn "sleep_duration" (.vmap m) = .ok true by
    simp [containsIn, hv])]
  rw [estep_ok (show containsIn "sleep_duration_ms" (.vmap m) = .ok false by
    simp [containsIn, hms])]
  rw [estep_ok (show getItem (.vmap m) "sleep_duration" = .ok v by simp [getItem, hv])]
  rw [estep_ok (show pyGetD (.vmap m) "duration_unit" (.vstr "seconds")
      = .ok (.vstr (u.getD "seconds")) by cases u <;> simp [pyGetD, hu])]
  rw [estep_ok (show pyLower (.vstr (u.getD "seconds"))
      = .ok (strLower (u.getD "seconds")) from rfl)]
  rcases u with _ | s
  · -- absent unit: the default is "seconds", so the value is multiplied by 1000
    obtain ⟨w, hw, hwr⟩ := pyMulInt_asRat hr 1000
    rw [estep_ok (show _ = .ok w by rw [if_pos (by decide)]; exact hw)]
    rw [estep_ok (show setItem (.vmap m) "sleep_duration_ms" w = .ok _ from rfl)]
    rw [estep_ok (show setItem (.vmap (pset m "sleep_duration_ms" w)) "duration_unit"
        (.vstr "ms") = .ok _ from rfl)]
    refine ⟨w, rfl, ?_⟩
    rw [hwr]
    norm_num [specSleepFactor]
  · simp only [Option.getD_some]
    by_cases h1 : (strLower s = "seconds" ∨ strLower s = "s")
    · obtain ⟨w, hw, hwr⟩ := pyMulInt_asRat hr 1000
      rw [estep_ok (show _ = .ok w by rw [if_pos h1]; exact hw)]
      rw [estep_ok (show setItem (.vmap m) "sleep_duration_ms" w = .ok _ from rfl)]
      rw [estep_ok (show setItem (.vmap (pset m "sleep_duration_ms" w)) "duration_unit"
          (.vstr "ms") = .ok _ from rfl)]
      refine ⟨w, rfl, ?_⟩
      rw [hwr]
      norm_num [specSleepFactor, h1]
    · by_cases h2 : (strLower s = "minutes" ∨ strLower s = "min")
      · obtain ⟨w1, hw1, hw1r⟩ := pyMulInt_asRat hr 60
        obtain ⟨w2, hw2, hw2r⟩ := pyMulInt_asRat hw1r 1000
        have hchain : ((pyMulInt v 60 : Except Unit Val) >>= fun x => pyMulInt x 1000)
            = .ok w2 := by
          rw [hw1]
          show pyMulInt w1 1000 = .ok w2
          exact hw2
        rw [estep_ok (show _ = .ok w2 by rw [if_neg h1, if_pos h2]; exact hchain)]
        rw [estep_ok (show setItem (.vmap m) "sleep_duration_ms" w2 = .ok _ from rfl)]
        rw [estep_ok (show setItem (.vmap (pset m "sleep_duration_ms" w2)) "duration_unit"
            (.vstr "ms") = .ok _ from rfl)]
        refine ⟨w2, rfl, ?_⟩
        rw [hw2r]
        simp only [specSleepFactor, if_neg h1, if_pos h2]
        norm_num
        ring
      · by_cases h3 : (strLower s = "hours" ∨ strLower s = "h")
        · obtain ⟨w1, hw1, hw1r⟩ := pyMulInt_asRat hr 60
          obtain ⟨w2, hw2, hw2r⟩ := pyMulInt_asRat hw1r 60
          obtain ⟨w3, hw3, hw3r⟩ := pyMulInt_asRat hw2r 1000
          have hchain : ((pyMulInt v 60 : Except Unit Val) >>=
              fun x => pyMulInt x 60 >>= fun y => pyMulInt y 1000) = .ok w3 := by
            rw [hw1]
            show (pyMulInt w1 60 >>= fun y => pyMulInt y 1000) = .ok w3
            rw [hw2]
            show pyMulInt w2 1000 = .ok w3
            exact hw3
          rw [estep_ok (show _ = .ok w3 by rw [if_neg h1, if_neg h2, if_pos h3]; exact hchain)]
          rw [estep_ok (show setItem (.vmap m) "sleep_duration_ms" w3 = .ok _ from rfl)]
          rw [estep_ok (show setItem (.vmap (pset m "sleep_duration_ms" w3)) "duration_unit"
              (.vstr "ms") = .ok _ from rfl)]
          refine ⟨w3, rfl, ?_⟩
          rw [hw3r]
          simp only [specSleepFactor, if_neg h1, if_neg h2, if_pos h3]
          norm_num
          ring
        · rw [estep_ok (show _ = .ok v by rw [if_neg h1, if_neg h2, if_neg h3])]
          rw [estep_ok (show setItem (.vmap m) "sleep_duration_ms" v = .ok _ from rfl)]
          rw [estep_ok (show setItem (.vmap (pset m "sleep_duration_ms" v)) "duration_unit"
              (.vstr "ms") = .ok _ from rfl)]
          refine ⟨v, rfl, ?_⟩
          rw [hr]
          simp only [specSleepFactor, if_neg h1, if_neg h2, if_neg h3]
          norm_num

theorem slpRule1_skip (m : Payload) (hms : (pget m "sleep_duration_ms").isSome) :
    slpRule1 (.vmap m) = .ok (.vmap m) := by
  unfold slpRule1
  rw [estep_ok (show containsIn "sleep_duration" (.vmap m)
      = .ok (pget m "sleep_duration").isSome from rfl)]
  cases hc : (pget m "sleep_duration").isSome
  · rfl
  · rw [estep_ok (show containsIn "sleep_duration_ms" (.vmap m) = .ok true by
      simp [containsIn, hms])]
    rfl

theorem normalize_activity_after1 (m : Payload) (d2 : Val)
    (h1 : actRule1 (.vmap m) = .ok d2) :
    frameRel ["total_calories", "steps"] d2 (normalize_activity (.vmap m)) := by
  have hrest : FramedF ["total_calories", "steps"] (eseq actRule2 actRule3) :=
    framed_eseq
      (framed_mono (by intro k hk; simp at hk; simp [hk]) actRule2_framed)
      (framed_mono (by intro k hk; simp at hk; simp [hk]) actRule3_framed)
  show frameRel _ d2 (runCatch actBody (.vmap m))
  unfold runCatch actBody eseq
  rw [h1]
  exact hrest d2

theorem normalize_sleep_after1 (m : Payload) (d2 : Val)
    (h1 : slpRule1 (.vmap m) = .ok d2) :
    frameRel ["normalized_stages"] d2 (normalize_sleep (.vmap m)) := by
  show frameRel _ d2 (runCatch slpBody (.vmap m))
  unfold runCatch slpBody eseq
  rw [h1]
  exact slpRule2_framed d2

/-- C6: for an activity payload with a numeric `distance` and a string (or
absent) `distance_unit`, `normalize_activity` computes `distance_meters` as
`distance` times the claimed factor (km/kilometers 1000, mi/miles 1609.34,
ft/feet 0.3048, anything else 1, case-insensitive) and always rewrites
`distance_unit` to `meters`. -/
theorem c6_distance (m : Payload) (v : Val) (r : ℚ) (u : Option String)
    (hv : pget m "distance" = some v) (hr : asRat v = some r)
    (hu : pget m "distance_unit" = u.map Val.vstr) :
    (∃ w, pgetV (normalize_activity (.vmap m)) "distance_meters" = some w ∧
        asRat w = some (r * specDistanceFactor u)) ∧
    pgetV (normalize_activity (.vmap m)) "distance_unit" = some (.vstr "meters") := by
  obtain ⟨w, h1, hw⟩ := actRule1_spec m v r u hv hr hu
  have hf := normalize_activity_after1 m _ h1
  have e1 : pgetV (Val.vmap (pset (pset m "distance_meters" w) "distance_unit"
      (.vstr "meters"))) "distance_meters" = some w := by
    simp [pgetV, pget_pset]
  have e2 : pgetV (Val.vmap (pset (pset m "distance_meters" w) "distance_unit"
      (.vstr "meters"))) "distance_unit" = some (.vstr "meters") := by
    simp [pgetV, pget_pset]
  constructor
  · exact ⟨w, (hf.1 "distance_meters" (by simp)).trans e1, hw⟩
  · exact (hf.1 "distance_unit" (by simp)).trans e2

/-- Witness for C6 at the scenario input
`{"distance": 2, "distance_unit": "miles"}`: the factor is 1609.34 and the
output is 3218.68 meters with unit `meters`. -/
theorem c6_witness :
    ((2 : ℚ) * specDistanceFactor (some "miles") = 3218.68) ∧
    (∃ w, pgetV (normalize_activity (.vmap
        [("distance", Val.vint 2), ("distance_unit", Val.vstr "miles")]))
        "distance_meters" = some w ∧
      asRat w = some ((2 : ℚ) * specDistanceFactor (some "miles"))) ∧
    pgetV (normalize_activity (.vmap
        [("distance", Val.vint 2), ("distance_unit", Val.vstr "miles")]))
      "distance_unit" = some (.vstr "meters") := by
  have h := c6_distance [("distance", Val.vint 2), ("distance_unit", Val.vstr "miles")]
    (Val.vint 2) 2 (some "miles") rfl (by norm_num [asRat]) rfl
  exact ⟨by decide, h.1, h.2⟩

/-- C5 (amended): for a sleep payload with a numeric `sleep_duration`, no
`sleep_duration_ms`, and a string or absent `duration_unit`,
`normalize_sleep` computes `sleep_duration_ms` as the value times the
claimed factor — seconds/s 1000, minutes/min 60000, hours/h 3600000,
case-insensitive — except that an ABSENT unit defaults to seconds (factor
1000), not milliseconds; only an explicit unrecognized unit string keeps
the value unchanged.  `duration_unit` is then set to `ms`. -/
theorem c5_duration (m : Payload) (v : Val) (r : ℚ) (u : Option String)
    (hv : pget m "sleep_duration" = some v) (hms : pget m "sleep_duration_ms" = none)
    (hr : asRat v = some r) (hu : pget m "duration_unit" = u.map Val.vstr) :
    (∃ w, pgetV (normalize_sleep (.vmap m)) "sleep_duration_ms" = some w ∧
        asRat w = some (r * specSleepFactor u)) ∧
    pgetV (normalize_sleep (.vmap m)) "duration_unit" = some (.vstr "ms") := by
  obtain ⟨w, h1, hw⟩ := slpRule1_spec m v r u hv hms hr hu
  have hf := normalize_sleep_after1 m _ h1
  have e1 : pgetV (Val.vmap (pset (pset m "sleep_duration_ms" w) "duration_unit"
      (.vstr "ms"))) "sleep_duration_ms" = some w := by
    simp [pgetV, pget_pset]
  have e2 : pgetV (Val.vmap (pset (pset m "sleep_duration_ms" w) "duration_unit"
      (.vstr "ms"))) "duration_unit" = some (.vstr "ms") := by
    simp [pgetV, pget_pset]
  constructor
  · exact ⟨w, (hf.1 "sleep_duration_ms" (by simp)).trans e1, hw⟩
  · exact (hf.1 "duration_unit" (by simp)).trans e2

/-- Witness for C5 at the scenario input
`{"sleep_duration": 8, "duration_unit": "hours"}`: the factor is 3600000
and the output is 28800000 ms. -/
theorem c5_witness :
    ((8 : ℚ) * specSleepFactor (some "hours") = 28800000) ∧
    (∃ w, pgetV (normalize_sleep (.vmap
        [("sleep_duration", Val.vint 8), ("duration_unit", Val.vstr "hours")]))
        "sleep_duration_ms" = some w ∧
      asRat w = some ((8 : ℚ) * specSleepFactor (some "hours"))) ∧
    pgetV (normalize_sleep (.vmap
        [("sleep_duration", Val.vint 8), ("duration_unit", Val.vstr "hours")]))
      "duration_unit" = some (.vstr "ms") := by
  have h := c5_duration [("sleep_duration", Val.vint 8), ("duration_unit", Val.vstr "hours")]
    (Val.vint 8) 8 (some "hours") rfl rfl (by norm_num [asRat]) rfl
  exact ⟨by decide, h.1, h.2⟩

/-- C4 (amended): a unit field is canonical exactly when the normalizer's
own conversion rule fires — the distance rule always sets `distance_unit`
to `meters`, the duration rule always sets `duration_unit` to `ms` — but
when the canonical value `sleep_duration_ms` is already present in the
input the rule is skipped and `duration_unit` keeps its source value, so
unit fields CAN be left at source units. -/
theorem c4_units :
    (∀ (m : Payload) (v : Val) (r : ℚ) (u : Option String),
        pget m "distance" = some v → asRat v = some r →
        pget m "distance_unit" = u.map Val.vstr →
        pgetV (normalize_activity (.vmap m)) "distance_unit" = some (.vstr "meters")) ∧
    (∀ (m : Payload) (v : Val) (r : ℚ) (u : Option String),
        pget m "sleep_duration" = some v → pget m "sleep_duration_ms" = none →
        asRat v = some r → pget m "duration_unit" = u.map Val.vstr →
        pgetV (normalize_sleep (.vmap m)) "duration_unit" = some (.vstr "ms")) ∧
    (∀ (m : Payload) (w : Val), pget m "sleep_duration_ms" = some w →
        pgetV (normalize_sleep (.vmap m)) "duration_unit" = pget m "duration_unit") := by
  refine ⟨?_, ?_, ?_⟩
  · intro m v r u hv hr hu
    obtain ⟨w, h1, -⟩ := actRule1_spec m v r u hv hr hu
    have hf := normalize_activity_after1 m _ h1
    refine (hf.1 "distance_unit" (by simp)).trans ?_
    simp [pgetV, pget_pset]
  · intro m v r u hv hms hr hu
    obtain ⟨w, h1, -⟩ := slpRule1_spec m v r u hv hms hr hu
    have hf := normalize_sleep_after1 m _ h1
    refine (hf.1 "duration_unit" (by simp)).trans ?_
    simp [pgetV, pget_pset]
  · intro m w hms
    have hskip := slpRule1_skip m (by simp [hms])
    have hf := normalize_sleep_after1 m _ hskip
    exact hf.1 "duration_unit" (by simp)

/-- Witness for C4: the distance rule rewrites the unit on the miles
scenario, the duration rule rewrites it on the hours scenario, and a
payload already carrying `sleep_duration_ms` keeps `duration_unit` at its
source value `seconds`. -/
theorem c4_witness :
    pgetV (normalize_activity (.vmap
        [("distance", Val.vint 2), ("distance_unit", Val.vstr "miles")]))
      "distance_unit" = some (.vstr "meters") ∧
    pgetV (normalize_sleep (.vmap
        [("sleep_duration", Val.vint 8), ("duration_unit", Val.vstr "hours")]))
      "duration_unit" = some (.vstr "ms") ∧
    pgetV (normalize_sleep (.vmap
        [("sleep_duration_ms", Val.vint 1000), ("duration_unit", Val.vstr "seconds")]))
      "duration_unit" = pget
        [("sleep_duration_ms", Val.vint 1000), ("duration_unit", Val.vstr "seconds")]
        "duration_unit" :=
  ⟨c4_units.1 _ (Val.vint 2) 2 (some "miles") rfl (by norm_num [asRat]) rfl,
   c4_units.2.1 _ (Val.vint 8) 8 (some "hours") rfl rfl (by norm_num [asRat]) rfl,
   c4_units.2.2 _ (Val.vint 1000) rfl⟩

/-! ## Stage-normalization lemmas (claim C2) -/

theorem lastAliasValue_nil (st : Payload) : lastAliasValue st [] = none := rfl

theorem lastAliasValue_cons (st : Payload) (a : String) (rest : List String) :
    lastAliasValue st (a :: rest) =
      match lastAliasValue st rest with
      | some x => some x
      | none => pget st a := by
  unfold lastAliasValue
  rw [List.reverse_cons, List.find?_append]
  cases hf : List.find? (fun x => (pget st x).isSome) rest.reverse with
  | some b =>
    have hb := List.find?_some hf
    obtain ⟨x, hx⟩ := Option.isSome_iff_exists.mp (by simpa using hb)
    simp [hx]
  | none =>
    cases hpa : pget st a with
    | none => simp [List.find?, hpa]
    | some x => simp [List.find?, hpa]

theorem scanAliases_spec (st : Payload) (std : String) (vars : List String) :
    ∀ acc : Payload, ∃ acc2, scanAliases (.vmap st) std vars acc = .ok acc2 ∧
      pget acc2 std = (match lastAliasValue st vars with
                       | some x => some x
                       | none => pget acc std) ∧
      ∀ k, k ≠ std → pget acc2 k = pget acc k := by
  induction vars with
  | nil =>
    intro acc
    exact ⟨acc, rfl, by rw [lastAliasValue_nil], fun k _ => rfl⟩
  | cons a rest ih =>
    intro acc
    cases hpa : pget st a with
    | none =>
      obtain ⟨acc2, he, hstd, hfr⟩ := ih acc
      refine ⟨acc2, ?_, ?_, hfr⟩
      · rw [show scanAliases (.vmap st) std (a :: rest) acc
            = scanAliases (.vmap st) std rest acc by
          rw [scanAliases]
          rw [show containsIn a (.vmap st) = .ok false by simp [containsIn, hpa]]]
        exact he
      · rw [lastAliasValue_cons]
        cases hl : lastAliasValue st rest with
        | some x => rw [hl] at hstd; exact hstd
        | none => rw [hl] at hstd; rw [hstd, hpa]
    | some x =>
      obtain ⟨acc2, he, hstd, hfr⟩ := ih (pset acc std x)
      refine ⟨acc2, ?_, ?_, ?_⟩
      · rw [show scanAliases (.vmap st) std (a :: rest) acc
            = scanAliases (.vmap st) std rest (pset acc std x) by
          rw [scanAliases]
          rw [show containsIn a (.vmap st) = .ok true by simp [containsIn, hpa]]
          rw [show getItem (.vmap st) a = .ok x by simp [getItem, hpa]]]
        exact he
      · rw [lastAliasValue_cons]
        cases hl : lastAliasValue st rest with
        | some y => rw [hl] at hstd; exact hstd
        | none =>
          rw [hl] at hstd
          rw [hstd, hpa, pget_pset]
          simp
      · intro k hk
        rw [hfr k hk, pget_pset, if_neg (fun he => hk he.symm)]

theorem buildStages_spec (st : Payload) :
    ∃ ns, buildStages (.vmap st) stage_mapping [] = .ok ns ∧
      (∀ std vars, (std, vars) ∈ stage_mapping → pget ns std = lastAliasValue st vars) ∧
      (∀ k, (pget ns k).isSome →
        k = "light" ∨ k = "deep" ∨ k = "rem" ∨ k = "awake") := by
  obtain ⟨a1, e1, s1, f1⟩ := scanAliases_spec st "light" ["light", "light_sleep"] []
  obtain ⟨a2, e2, s2, f2⟩ :=
    scanAliases_spec st "deep" ["deep", "deep_sleep", "slow_wave"] a1
  obtain ⟨a3, e3, s3, f3⟩ :=
    scanAliases_spec st "rem" ["rem", "rem_sleep", "rapid_eye_movement"] a2
  obtain ⟨a4, e4, s4, f4⟩ :=
    scanAliases_spec st "awake" ["awake", "wake", "wakefulness"] a3
  have idopt : ∀ o : Option Val,
      (match o with | some x => some x | none => (none : Option Val)) = o := by
    intro o
    cases o <;> rfl
  refine ⟨a4, ?_, ?_, ?_⟩
  · simp only [stage_mapping, buildStages, e1, e2, e3, e4]
  · intro std vars hmem
    simp only [stage_mapping, List.mem_cons, List.not_mem_nil, or_false,
      Prod.mk.injEq] at hmem
    rcases hmem with ⟨h1, h2⟩ | ⟨h1, h2⟩ | ⟨h1, h2⟩ | ⟨h1, h2⟩ <;> subst h1 <;> subst h2
    · rw [f4 "light" (by decide), f3 "light" (by decide), f2 "light" (by decide)]
      rw [s1]
      rw [show pget ([] : Payload) "light" = none from rfl]
      exact idopt _
    · rw [f4 "deep" (by decide), f3 "deep" (by decide)]
      rw [s2, f1 "deep" (by decide)]
      rw [show pget ([] : Payload) "deep" = none from rfl]
      exact idopt _
    · rw [f4 "rem" (by decide)]
      rw [s3, f2 "rem" (by decide), f1 "rem" (by decide)]
      rw [show pget ([] : Payload) "rem" = none from rfl]
      exact idopt _
    · rw [s4, f3 "awake" (by decide), f2 "awake" (by decide), f1 "awake" (by decide)]
      rw [show pget ([] : Payload) "awake" = none from rfl]
      exact idopt _
  · intro k hk
    by_contra hcon
    push_neg at hcon
    obtain ⟨n1, n2, n3, n4⟩ := hcon
    rw [f4 k n4, f3 k n3, f2 k n2, f1 k n1] at hk
    simp [pget] at hk

/-- C2 (amended): when a sleep payload carries a `stages` mapping (and the
duration rule does not raise), `normalize_sleep` builds `normalized_stages`
by assigning each canonical stage the value of the LAST alias present in
the declared alias order — the source loop has no `break`, so later aliases
overwrite earlier ones — and its keys are drawn only from
`{light, deep, rem, awake}`. -/
theorem c2_last_alias (m : Payload) (st : Payload)
    (hst : pget m "stages" = some (.vmap st))
    (hok : ∃ w, slpRule1 (.vmap m) = .ok w) :
    ∃ ns : Payload,
      pgetV (normalize_sleep (.vmap m)) "normalized_stages" = some (.vmap ns) ∧
      (∀ std vars, (std, vars) ∈ stage_mapping → pget ns std = lastAliasValue st vars) ∧
      (∀ k, (pget ns k).isSome →
        k = "light" ∨ k = "deep" ∨ k = "rem" ∨ k = "awake") := by
  obtain ⟨w, hw⟩ := hok
  have hfr := slpRule1_framed (.vmap m)
  rw [hw] at hfr
  have hst2 : pgetV w "stages" = some (.vmap st) :=
    (hfr.1 "stages" (by simp)).trans hst
  rcases w with _ | b | n | q | s | l | mw
  case vnone => simp [pgetV] at hst2
  case vbool => simp [pgetV] at hst2
  case vint => simp [pgetV] at hst2
  case vnum => simp [pgetV] at hst2
  case vstr => simp [pgetV] at hst2
  case vlist => simp [pgetV] at hst2
  case vmap =>
  obtain ⟨ns, hbuild, hvals, hkeys⟩ := buildStages_spec st
  have hrun : normalize_sleep (.vmap m)
      = .vmap (pset mw "normalized_stages" (.vmap ns)) := by
    show runCatch slpBody (.vmap m) = _
    unfold runCatch slpBody eseq
    rw [hw]
    dsimp only
    unfold slpRule2
    rw [estep_ok (show containsIn "stages" (.vmap mw) = .ok true by
      simp only [containsIn]
      rw [show pget mw "stages" = some (.vmap st) from hst2]
      rfl)]
    rw [estep_ok (show getItem (.vmap mw) "stages" = .ok (.vmap st) by
      simp only [getItem]
      rw [show pget mw "stages" = some (.vmap st) from hst2])]
    rw [estep_ok (show buildStages (.vmap st) stage_mapping [] = .ok ns from hbuild)]
    rw [estep_ok (show setItem (.vmap mw) "normalized_stages" (.vmap ns)
        = .ok _ from rfl)]
    rfl
  refine ⟨ns, ?_, hvals, hkeys⟩
  rw [hrun]
  simp [pgetV, pget_pset]

/-- Witness for C2 at the concrete payload whose `stages` mapping carries
both `deep` and `slow_wave`: the built `normalized_stages` follows the
last-alias rule and uses only canonical keys. -/
theorem c2_witness :
    ∃ ns : Payload,
      pgetV (normalize_sleep (.vmap
          [("stages", .vmap [("deep", Val.vint 100), ("slow_wave", Val.vint 200)])]))
        "normalized_stages" = some (.vmap ns) ∧
      (∀ std vars, (std, vars) ∈ stage_mapping →
        pget ns std = lastAliasValue
          [("deep", Val.vint 100), ("slow_wave", Val.vint 200)] vars) ∧
      (∀ k, (pget ns k).isSome →
        k = "light" ∨ k = "deep" ∨ k = "rem" ∨ k = "awake") :=
  c2_last_alias _ _ rfl ⟨_, rfl⟩

/-- C3 (amended): the record-level step applies each domain normalizer to
its own payload column unconditionally — the result never depends on
`data_type`, so there is no dispatch; a null column yields a null output
column, and a non-null column is normalized even when the tag does not
match it. -/
theorem c3_no_dispatch (r : RawRecord) (t : Val) :
    ((normalized_df r).normalized_heart_rate = normalize_heart_rate r.heart_rate ∧
     (normalized_df r).normalized_activity = normalize_activity r.activity ∧
     (normalized_df r).normalized_sleep = normalize_sleep r.sleep) ∧
    ((normalized_df { r with data_type := t }).normalized_heart_rate =
        (normalized_df r).normalized_heart_rate ∧
     (normalized_df { r with data_type := t }).normalized_activity =
        (normalized_df r).normalized_activity ∧
     (normalized_df { r with data_type := t }).normalized_sleep =
        (normalized_df r).normalized_sleep) ∧
    ((r.heart_rate = .vnone → (normalized_df r).normalized_heart_rate = .vnone) ∧
     (r.activity = .vnone → (normalized_df r).normalized_activity = .vnone) ∧
     (r.sleep = .vnone → (normalized_df r).normalized_sleep = .vnone)) := by
  refine ⟨⟨rfl, rfl, rfl⟩, ⟨rfl, rfl, rfl⟩, ?_, ?_, ?_⟩
  · intro h
    show normalize_heart_rate r.heart_rate = .vnone
    rw [h]
    rfl
  · intro h
    show normalize_activity r.activity = .vnone
    rw [h]
    rfl
  · intro h
    show normalize_sleep r.sleep = .vnone
    rw [h]
    rfl

/-- Witness for C3 at a concrete record with every payload column null. -/
theorem c3_witness :
    (normalized_df
        { data_type := Val.vstr "heart_rate", start_date := none, end_date := none,
          date := none, heart_rate := Val.vnone, activity := Val.vnone,
          sleep := Val.vnone }).normalized_heart_rate = Val.vnone :=
  (c3_no_dispatch
    { data_type := Val.vstr "heart_rate", start_date := none, end_date := none,
      date := none, heart_rate := Val.vnone, activity := Val.vnone,
      sleep := Val.vnone } (Val.vstr "other")).2.2.1 rfl

/-! ## The whole-normalizer frame property (claim C10) -/

theorem hrBody_framed : FramedF writeSet10 hrBody := by
  have m1 : ∀ k, k ∈ (["avg_bpm", "unit"] : List String) → k ∈ writeSet10 := by
    intro k hk
    simp only [List.mem_cons, List.not_mem_nil, or_false] at hk
    simp [writeSet10]
    tauto
  exact framed_eseq (framed_mono m1 hrRule1_framed)
    (framed_eseq (framed_mono m1 hrRule2_framed)
      (framed_eseq (framed_mono m1 hrRule3_framed) (framed_mono m1 hrRule4_framed)))

theorem actBody_framed : FramedF writeSet10 actBody := by
  have m1 : ∀ k, k ∈ (["distance_meters", "distance_unit"] : List String) →
      k ∈ writeSet10 := by
    intro k hk
    simp only [List.mem_cons, List.not_mem_nil, or_false] at hk
    simp [writeSet10]
    tauto
  have m2 : ∀ k, k ∈ (["total_calories"] : List String) → k ∈ writeSet10 := by
    intro k hk
    simp only [List.mem_cons, List.not_mem_nil, or_false] at hk
    simp [writeSet10]
    tauto
  have m3 : ∀ k, k ∈ (["steps"] : List String) → k ∈ writeSet10 := by
    intro k hk
    simp only [List.mem_cons, List.not_mem_nil, or_false] at hk
    simp [writeSet10]
    tauto
  exact framed_eseq (framed_mono m1 actRule1_framed)
    (framed_eseq (framed_mono m2 actRule2_framed) (framed_mono m3 actRule3_framed))

theorem slpBody_framed : FramedF writeSet10 slpBody := by
  have m1 : ∀ k, k ∈ (["sleep_duration_ms", "duration_unit"] : List String) →
      k ∈ writeSet10 := by
    intro k hk
    simp only [List.mem_cons, List.not_mem_nil, or_false] at hk
    simp [writeSet10]
    tauto
  have m2 : ∀ k, k ∈ (["normalized_stages"] : List String) → k ∈ writeSet10 := by
    intro k hk
    simp only [List.mem_cons, List.not_mem_nil, or_false] at hk
    simp [writeSet10]
    tauto
  exact framed_eseq (framed_mono m1 slpRule1_framed) (framed_mono m2 slpRule2_framed)

/-- C10: on every mapping payload each domain normalizer preserves every
input key — a key outside the write set keeps its original value, and no
key is ever deleted (every input key is still present in the output), even
on the exception paths. -/
theorem c10_frame (m : Payload) (k : String) :
    (k ∉ writeSet10 →
      pgetV (normalize_heart_rate (.vmap m)) k = pget m k ∧
      pgetV (normalize_activity (.vmap m)) k = pget m k ∧
      pgetV (normalize_sleep (.vmap m)) k = pget m k) ∧
    ((pget m k).isSome →
      (pgetV (normalize_heart_rate (.vmap m)) k).isSome ∧
      (pgetV (normalize_activity (.vmap m)) k).isSome ∧
      (pgetV (normalize_sleep (.vmap m)) k).isSome) := by
  have hh := framed_runCatch hrBody_framed (.vmap m)
  have ha := framed_runCatch actBody_framed (.vmap m)
  have hs := framed_runCatch slpBody_framed (.vmap m)
  constructor
  · intro hk
    exact ⟨hh.1 k hk, ha.1 k hk, hs.1 k hk⟩
  · intro hsome
    exact ⟨hh.2 k hsome, ha.2 k hsome, hs.2 k hsome⟩

/-- Witness for C10 on a concrete heart-rate-style payload and the
non-written key `avg_hr`. -/
theorem c10_witness :
    (pgetV (normalize_heart_rate (.vmap [("avg_hr", Val.vint 70)])) "avg_hr"
      = pget [("avg_hr", Val.vint 70)] "avg_hr" ∧
     pgetV (normalize_activity (.vmap [("avg_hr", Val.vint 70)])) "avg_hr"
      = pget [("avg_hr", Val.vint 70)] "avg_hr" ∧
     pgetV (normalize_sleep (.vmap [("avg_hr", Val.vint 70)])) "avg_hr"
      = pget [("avg_hr", Val.vint 70)] "avg_hr") ∧
    ((pgetV (normalize_heart_rate (.vmap [("avg_hr", Val.vint 70)])) "avg_hr").isSome ∧
     (pgetV (normalize_activity (.vmap [("avg_hr", Val.vint 70)])) "avg_hr").isSome ∧
     (pgetV (normalize_sleep (.vmap [("avg_hr", Val.vint 70)])) "avg_hr").isSome) :=
  ⟨(c10_frame [("avg_hr", Val.vint 70)] "avg_hr").1 (by simp [writeSet10]),
   (c10_frame [("avg_hr", Val.vint 70)] "avg_hr").2 (by simp [pget])⟩
